import Mathlib

/-
Verification of the palette-generation core of pywal (`pywal/colors.py`).

Strings are modelled as Lean `String`/`List Char`; Python floats are modelled as
exact rationals (the only float operations in the code are field arithmetic and
comparisons, which the rational model reflects faithfully for the decimal
literals involved).  Fallible Python code (statements that can raise) is
modelled in `Except PyErr`.  Functions from `pywal/util.py`, `pywal/theme.py`
and `pywal/settings.py` are not part of the given sources; where a claim needs
them they are modelled from the specification and marked as such.
-/

namespace Pywal

/-- Exact rational numbers kept unnormalized, so that every operation reduces in
the kernel (Lean's built-in `Rat` normalizes through `Nat.gcd`, which blocks
kernel evaluation).  The denominator is positive by construction.  Used to model
Python float values exactly. -/
structure Q where
  num : Int
  den : Nat
  dpos : 0 < den

instance : DecidableEq Q := fun a b =>
  decidable_of_iff (a.num = b.num ∧ a.den = b.den) (by
    constructor
    · rintro ⟨h1, h2⟩
      cases a; cases b; simp_all
    · rintro rfl; exact ⟨rfl, rfl⟩)

def Q.ofInt (n : Int) : Q := ⟨n, 1, Nat.one_pos⟩

instance (n : Nat) : OfNat Q n := ⟨⟨n, 1, Nat.one_pos⟩⟩

def Q.add (a b : Q) : Q :=
  ⟨a.num * b.den + b.num * a.den, a.den * b.den, Nat.mul_pos a.dpos b.dpos⟩

instance : Add Q := ⟨Q.add⟩

def Q.sub (a b : Q) : Q :=
  ⟨a.num * b.den - b.num * a.den, a.den * b.den, Nat.mul_pos a.dpos b.dpos⟩

instance : Sub Q := ⟨Q.sub⟩

def Q.mul (a b : Q) : Q :=
  ⟨a.num * b.num, a.den * b.den, Nat.mul_pos a.dpos b.dpos⟩

instance : Mul Q := ⟨Q.mul⟩

def Q.neg (a : Q) : Q := ⟨-a.num, a.den, a.dpos⟩

instance : Neg Q := ⟨Q.neg⟩

/-- Division.  Division by a zero value is unreachable in the modelled code
(every divisor there is nonzero when reached); that branch gets a junk value. -/
def Q.div (a b : Q) : Q :=
  if h : b.num = 0 then ⟨0, 1, Nat.one_pos⟩
  else if b.num < 0 then
    ⟨-(a.num * b.den), a.den * b.num.natAbs,
      Nat.mul_pos a.dpos (Int.natAbs_pos.mpr h)⟩
  else
    ⟨a.num * b.den, a.den * b.num.natAbs,
      Nat.mul_pos a.dpos (Int.natAbs_pos.mpr h)⟩

instance : Div Q := ⟨Q.div⟩

def Q.lt (a b : Q) : Prop := a.num * b.den < b.num * a.den

instance : LT Q := ⟨Q.lt⟩

instance (a b : Q) : Decidable (a < b) := Int.decLt _ _

def Q.le (a b : Q) : Prop := a.num * b.den ≤ b.num * a.den

instance : LE Q := ⟨Q.le⟩

instance (a b : Q) : Decidable (a ≤ b) := Int.decLe _ _

/-- Value equality (Python `==` on numbers); distinct from structural equality
because `Q` carries unnormalized fractions. -/
def Q.qeq (a b : Q) : Prop := a.num * b.den = b.num * a.den

instance (a b : Q) : Decidable (a.qeq b) := Int.decEq _ _

/-- Interpretation into Mathlib's rationals; used for reasoning only. -/
def Q.val (a : Q) : ℚ := (a.num : ℚ) / (a.den : ℚ)

lemma Q.den_pos_q (a : Q) : (0 : ℚ) < (a.den : ℚ) := by exact_mod_cast a.dpos

lemma Q.lt_iff (a b : Q) : a < b ↔ a.val < b.val := by
  show a.num * b.den < b.num * a.den ↔ _
  rw [Q.val, Q.val, div_lt_div_iff₀ a.den_pos_q b.den_pos_q]
  exact_mod_cast Iff.rfl

lemma Q.le_iff (a b : Q) : a ≤ b ↔ a.val ≤ b.val := by
  show a.num * b.den ≤ b.num * a.den ↔ _
  rw [Q.val, Q.val, div_le_div_iff₀ a.den_pos_q b.den_pos_q]
  exact_mod_cast Iff.rfl

lemma Q.qeq_iff (a b : Q) : a.qeq b ↔ a.val = b.val := by
  show a.num * b.den = b.num * a.den ↔ _
  rw [Q.val, Q.val, div_eq_div_iff (ne_of_gt a.den_pos_q) (ne_of_gt b.den_pos_q)]
  exact_mod_cast Iff.rfl

/-- Python `math.floor` on an exact rational (`Int.fdiv` rounds toward `-∞`). -/
def Q.floor (a : Q) : Int := Int.fdiv a.num a.den

/-- Python `int(x)`: truncation toward zero (`Int.tdiv` rounds toward zero). -/
def Q.trunc (a : Q) : Int := Int.tdiv a.num a.den

/-- Errors raised by the modelled code.  Python raises `ValueError` for the
first three (the spec's taxonomy calls them FormatError and UnderflowError) and
`IndexError` for the last. -/
inductive PyErr where
  /-- `ValueError` from `int()`/`float()` parsing (spec taxonomy: FormatError). -/
  | formatError
  /-- `ValueError: min() arg is an empty sequence` (spec taxonomy: UnderflowError). -/
  | underflow
  /-- `ValueError: list.remove(x): x not in list`. -/
  | removeMissing
  /-- `IndexError` from list indexing or item assignment. -/
  | indexError
deriving DecidableEq

instance {ε α : Type} [DecidableEq ε] [DecidableEq α] : DecidableEq (Except ε α) :=
  fun a b =>
    match a, b with
    | .ok x, .ok y =>
      if h : x = y then .isTrue (by rw [h]) else .isFalse (fun he => h (Except.ok.inj he))
    | .error e, .error f =>
      if h : e = f then .isTrue (by rw [h]) else .isFalse (fun he => h (Except.error.inj he))
    | .ok _, .error _ => .isFalse (fun he => Except.noConfusion he)
    | .error _, .ok _ => .isFalse (fun he => Except.noConfusion he)

/-- ASCII whitespace recognised by Python's `int(str, 16)` / `float(str)`
stripping (codes 9-13 and 32; the further Unicode space characters Python also
strips cannot occur in the inputs considered here). -/
def pyWhitespace (c : Char) : Bool :=
  c.toNat = 32 ∨ (9 ≤ c.toNat ∧ c.toNat ≤ 13)

/-- Value of a hexadecimal digit: `0`-`9` (codes 48-57), `a`-`f` (97-102),
`A`-`F` (65-70); `none` otherwise. -/
def hexDigitVal (c : Char) : Option Nat :=
  if 48 ≤ c.toNat ∧ c.toNat ≤ 57 then some (c.toNat - 48)
  else if 97 ≤ c.toNat ∧ c.toNat ≤ 102 then some (c.toNat - 87)
  else if 65 ≤ c.toNat ∧ c.toNat ≤ 70 then some (c.toNat - 55)
  else none

/-- Continuation of hex-digit parsing: digits with single underscores allowed
between digits, as Python's `int(str, 16)` accepts. -/
def hexDigitsAux : List Char → Nat → Option Nat
  | [], acc => some acc
  | c :: rest, acc =>
    if c = '_' then
      match rest with
      | [] => none
      | c2 :: rest2 =>
        match hexDigitVal c2 with
        | some v => hexDigitsAux rest2 (acc * 16 + v)
        | none => none
    else
      match hexDigitVal c with
      | some v => hexDigitsAux rest (acc * 16 + v)
      | none => none

/-- A nonempty run of hex digits (with internal underscores), as accepted by
Python's `int(str, 16)` after sign and prefix handling. -/
def parseHexBody : List Char → Option Nat
  | [] => none
  | c :: rest =>
    match hexDigitVal c with
    | some v => hexDigitsAux rest v
    | none => none

/-- Python `int(str, 16)` after the optional sign: an optional `0x`/`0X` prefix
(with one optional underscore after it), then hex digits. -/
def parseAfterSign (l : List Char) : Option Nat :=
  match l with
  | c :: x :: rest =>
    if c = '0' ∧ (x = 'x' ∨ x = 'X') then
      match rest with
      | '_' :: rest2 => parseHexBody rest2
      | _ => parseHexBody rest
    else parseHexBody l
  | _ => parseHexBody l

/-- Python `int(str, 16)`: strip whitespace from both ends, optional single
sign, optional `0x` prefix, nonempty hex digits.  `none` models the
`ValueError` raise. -/
def pyIntHex (l : List Char) : Option Int :=
  let t := ((l.dropWhile pyWhitespace).reverse.dropWhile pyWhitespace).reverse
  match t with
  | [] => none
  | c :: rest =>
    if c = '+' then (parseAfterSign rest).map Int.ofNat
    else if c = '-' then (parseAfterSign rest).map (fun n => -Int.ofNat n)
    else (parseAfterSign (c :: rest)).map Int.ofNat

/-- `colors.hex_to_rgb`: strip leading `#` characters (`str.lstrip("#")`), then
parse the character slices `[0:2]`, `[2:4]`, `[4:6]` with `int(-, 16)` and
divide each by 255.  Python slicing silently shortens out-of-range slices, so
inputs longer or shorter than 6 characters are not necessarily rejected. -/
def hex_to_rgb (l : List Char) : Option (Q × Q × Q) :=
  let t := l.dropWhile (· = '#')
  match pyIntHex (t.take 2), pyIntHex ((t.drop 2).take 2), pyIntHex ((t.drop 4).take 2) with
  | some r, some g, some b =>
    some (Q.ofInt r / 255, Q.ofInt g / 255, Q.ofInt b / 255)
  | _, _, _ => none

/-- `colors.color_diff`, squared: the source returns
`sqrt((r2-r1)**2 + (g2-g1)**2 + (b2-b1)**2)` and only ever compares these
values (inside `min`); since `sqrt` is strictly monotone on nonnegative reals,
comparing the squared distances is equivalent (see `sqrt_lt_sqrt_iff_of_nonneg`
below).  `none` models the `ValueError` raised on a malformed hex string. -/
def colorDiffSq (rgb1 : Q × Q × Q) (hex2 : String) : Option Q :=
  match hex_to_rgb hex2.data with
  | none => none
  | some (r2, g2, b2) =>
    some ((r2 - rgb1.1) * (r2 - rgb1.1) + (g2 - rgb1.2.1) * (g2 - rgb1.2.1) +
          (b2 - rgb1.2.2) * (b2 - rgb1.2.2))

/-- Why comparing squared distances is faithful to the source's `sqrt`-based
distances: `sqrt` preserves strict comparisons (hence also minima and ties). -/
lemma sqrt_lt_sqrt_iff_of_nonneg (a b : ℝ) (ha : 0 ≤ a) :
    Real.sqrt a < Real.sqrt b ↔ a < b := by
  constructor
  · intro h
    by_contra hc
    exact absurd (Real.sqrt_le_sqrt (not_lt.mp hc)) (not_le.mpr h)
  · exact fun h => (Real.sqrt_lt_sqrt ha h)

/-- `colors.x_colors_b`: the reference palette, byte triples, in source order.
The trailing comments reproduce the source's own labels. -/
def x_colors_b : List (Nat × Nat × Nat) :=
  [ (0, 0, 0),       -- Black
    (205, 0, 0),     -- Red
    (0, 205, 0),     -- Green
    (205, 205, 0),   -- Yellow
    (0, 0, 238),     -- Blue
    (205, 0, 205),   -- Magenta
    (0, 205, 205),   -- Cyan
    (229, 229, 229), -- White
    (255, 0, 0),     -- Bright Red
    (0, 255, 0),     -- Bright Green
    (255, 255, 0),   -- Bright Yellow
    (92, 92, 255),   -- Bright Blue
    (255, 0, 255),   -- Bright Magenta
    (0, 255, 255),   -- Bright Cyan
    (127, 127, 127), -- Bright Black (Gray)
    (255, 255, 255)  -- Bright White
  ]

/-- `colors.x_colors`: the reference palette normalized to `[0,1]` channels. -/
def x_colors : List (Q × Q × Q) :=
  x_colors_b.map (fun t =>
    (Q.ofInt t.1 / 255, Q.ofInt t.2.1 / 255, Q.ofInt t.2.2 / 255))

/-- Python `min(best, *xs, key=key)` continuation: fold keeping the current
minimum, replacing it only on a strictly smaller key, so the first minimum in
iteration order wins.  A `none` key models the exception raised by the key
function. -/
def pyMinAux (key : String → Option Q) : String → Q → List String → Except PyErr String
  | best, _, [] => .ok best
  | best, bk, x :: xs =>
    match key x with
    | none => .error .formatError
    | some kx => if kx < bk then pyMinAux key x kx xs else pyMinAux key best bk xs

/-- Python `min(cs, key=key)`:  `ValueError` on an empty sequence. -/
def pyMin (key : String → Option Q) : List String → Except PyErr String
  | [] => .error .underflow
  | c :: cs =>
    match key c with
    | none => .error .formatError
    | some kc => pyMinAux key c kc cs

/-- Python `list.remove(x)`: remove the first element equal to `x`; `none`
models the `ValueError` when `x` is absent. -/
def pyRemove (x : String) : List String → Option (List String)
  | [] => none
  | c :: cs => if c = x then some cs else (pyRemove x cs).map (c :: ·)

/-- The loop of `colors.match_colors`: `out` starts as `[None] * len(colors)`
and `out[i]` is assigned in slot order `i = 0, 1, ...`. -/
def matchGo : List (Q × Q × Q) → List String → List (Option String) → Nat →
    Except PyErr (List (Option String))
  | [], _, out, _ => .ok out
  | x :: xs, cs, out, i =>
    match pyMin (colorDiffSq x) cs with
    | .error e => .error e
    | .ok d =>
      match pyRemove d cs with
      | none => .error .removeMissing
      | some cs' => matchGo xs cs' (out.set i (some d)) (i + 1)

/-- `colors.match_colors`: greedily assign, for each reference slot in order,
the remaining extracted color minimizing `color_diff`. -/
def match_colors (colors : List String) : Except PyErr (List (Option String)) :=
  matchGo x_colors colors (List.replicate colors.length none) 0

/-- Modelled from the spec (§4.2): select the single remaining extracted color
minimizing distance to the reference color (first encountered in the remaining
pool on an exact tie), and remove exactly that occurrence from the pool.
Returns the selected color, its key, and the remaining pool. -/
def specPick (key : String → Option Q) : List String → Except PyErr (String × Q × List String)
  | [] => .error .underflow
  | c :: cs =>
    match key c with
    | none => .error .formatError
    | some kc =>
      match cs with
      | [] => .ok (c, kc, [])
      | _ :: _ =>
        match specPick key cs with
        | .error e => .error e
        | .ok (d, kd, rest) =>
          if kc ≤ kd then .ok (c, kc, cs) else .ok (d, kd, c :: rest)

/-- Modelled from the spec (§4.2): iterate reference slots in their fixed
order; for each slot select and remove the closest remaining color and append
it to the output. -/
def specMatchGo : List (Q × Q × Q) → List String → Except PyErr (List String)
  | [], _ => .ok []
  | x :: xs, cs =>
    match specPick (colorDiffSq x) cs with
    | .error e => .error e
    | .ok (d, _, rest) =>
      match specMatchGo xs rest with
      | .error e => .error e
      | .ok sel => .ok (d :: sel)

/-- Modelled from the spec (§4.2): the slot matcher described by the spec. -/
def specMatchColors (colors : List String) : Except PyErr (List String) :=
  specMatchGo x_colors colors

/-- Writing a block of selections into consecutive positions of `out`,
mirroring the `out[i] = desired` assignments of the source loop. -/
def overwrite : List (Option String) → Nat → List String → List (Option String)
  | out, _, [] => out
  | out, i, s :: ss => overwrite (out.set i (some s)) (i + 1) ss

/-- Python `max(a, b)` on floats: keeps the first argument on a tie. -/
def qmax (a b : Q) : Q := if a < b then b else a

/-- Python `min(a, b)` on floats: keeps the first argument on a tie. -/
def qmin (a b : Q) : Q := if b < a then b else a

/-- Python `x % 1.0` for floats: `x - floor(x)`. -/
def pyMod1 (x : Q) : Q := x - Q.ofInt x.floor

/-- Modelled from the spec (§4.3): the lighten/darken/saturate utilities of
`pywal/util.py` (not among the given sources) "are HSL-space operations:
convert to HSL, scale the target component ..., convert back to RGB".  This is
the standard RGB-to-HSL conversion (as in Python's `colorsys.rgb_to_hls`),
returning `(h, l, s)`. -/
def rgb_to_hls (r g b : Q) : Q × Q × Q :=
  let maxc := qmax (qmax r g) b
  let minc := qmin (qmin r g) b
  let l := (minc + maxc) / 2
  if minc.qeq maxc then (0, l, 0)
  else
    let delta := maxc - minc
    let s := if l ≤ 1 / 2 then delta / (maxc + minc) else delta / (2 - maxc - minc)
    let rc := (maxc - r) / delta
    let gc := (maxc - g) / delta
    let bc := (maxc - b) / delta
    let h := if r.qeq maxc then bc - gc
             else if g.qeq maxc then 2 + rc - bc
             else 4 + gc - rc
    (pyMod1 (h / 6), l, s)

/-- Modelled from the spec (§4.3): one channel of the HSL-to-RGB conversion
(as in `colorsys._v`). -/
def hueComp (m1 m2 hue : Q) : Q :=
  let hue := pyMod1 hue
  if hue < 1 / 6 then m1 + (m2 - m1) * hue * 6
  else if hue < 1 / 2 then m2
  else if hue < 2 / 3 then m1 + (m2 - m1) * (2 / 3 - hue) * 6
  else m1

/-- Modelled from the spec (§4.3): the standard HSL-to-RGB conversion (as in
`colorsys.hls_to_rgb`). -/
def hls_to_rgb (h l s : Q) : Q × Q × Q :=
  if s.qeq 0 then (l, l, l)
  else
    let m2 := if l ≤ 1 / 2 then l * (1 + s) else l + s - l * s
    let m1 := 2 * l - m2
    (hueComp m1 m2 (h + 1 / 3), hueComp m1 m2 h, hueComp m1 m2 (h - 1 / 3))

/-- Lowercase hex digit for a value below 16 (only such values are reachable
for valid colors). -/
def toHexDigit (n : Nat) : Char :=
  if n < 10 then Char.ofNat (48 + n) else Char.ofNat (87 + n)

/-- `"%02x"` formatting of a channel byte (the reachable range is 0-255). -/
def byteHex (n : Nat) : List Char := [toHexDigit (n / 16), toHexDigit (n % 16)]

/-- Modelled from the spec (§3): a Color is "equivalently representable as a
hexadecimal string `#rrggbb`"; formatting of normalized channels back to such a
string, with Python's `int(x * 255)` truncation. -/
def rgb_to_hex (r g b : Q) : String :=
  String.mk ('#' :: (byteHex (Q.trunc (r * 255)).toNat ++
    byteHex (Q.trunc (g * 255)).toNat ++ byteHex (Q.trunc (b * 255)).toNat))

/-- Modelled from the spec (§4.3): `util.saturate_color` - convert to HSL, set
the saturation component to the target amount, convert back.  `none` models the
exception on a malformed hex string. -/
def saturate_color (color : String) (amount : Q) : Option String :=
  match hex_to_rgb color.data with
  | none => none
  | some (r, g, b) =>
    let hls := rgb_to_hls r g b
    let rgb := hls_to_rgb hls.1 hls.2.1 amount
    some (rgb_to_hex rgb.1 rgb.2.1 rgb.2.2)

/-- Modelled from the spec (§4.3): `util.darken_color` - scale the lightness
component by the given fraction toward its bound 0. -/
def darken_color (color : String) (amount : Q) : Option String :=
  match hex_to_rgb color.data with
  | none => none
  | some (r, g, b) =>
    let hls := rgb_to_hls r g b
    let rgb := hls_to_rgb hls.1 (hls.2.1 * (1 - amount)) hls.2.2
    some (rgb_to_hex rgb.1 rgb.2.1 rgb.2.2)

/-- Modelled from the spec (§4.3): `util.lighten_color` - scale the lightness
component by the given fraction toward its bound 1. -/
def lighten_color (color : String) (amount : Q) : Option String :=
  match hex_to_rgb color.data with
  | none => none
  | some (r, g, b) =>
    let hls := rgb_to_hls r g b
    let rgb := hls_to_rgb hls.1 (hls.2.1 + (1 - hls.2.1) * amount) hls.2.2
    some (rgb_to_hex rgb.1 rgb.2.1 rgb.2.2)

/-- Value of a decimal digit. -/
def decDigitVal (c : Char) : Option Nat :=
  if 48 ≤ c.toNat ∧ c.toNat ≤ 57 then some (c.toNat - 48) else none

/-- A run of decimal digits, accumulating left to right. -/
def decNat : List Char → Nat → Option Nat
  | [], acc => some acc
  | c :: cs, acc =>
    match decDigitVal c with
    | some v => decNat cs (acc * 10 + v)
    | none => none

/-- Strip ASCII whitespace from both ends. -/
def stripWs (l : List Char) : List Char :=
  ((l.dropWhile pyWhitespace).reverse.dropWhile pyWhitespace).reverse

/-- Python `float(str)` for plain decimal literals: optional sign, digits with
an optional single decimal point (at least one digit overall).  Exponent,
`inf`/`nan` and underscore forms are not modelled; the saturation strings the
program handles are plain decimals.  `none` models the `ValueError` raise. -/
def pyFloat (s : String) : Option Q :=
  let t := stripWs s.data
  let sgn : Q := if t.head? = some '-' then -1 else 1
  let u := if t.head? = some '-' ∨ t.head? = some '+' then t.tail else t
  let ip := u.takeWhile (· ≠ '.')
  let rest := u.dropWhile (· ≠ '.')
  match rest with
  | [] =>
    match decNat ip 0 with
    | some n => if ip = [] then none else some (sgn * Q.ofInt n)
    | none => none
  | _ :: fp =>
    match decNat ip 0, decNat fp 0 with
    | some n, some f =>
      if ip = [] ∧ fp = [] then none
      else some (sgn * (Q.ofInt n + Q.ofInt f / Q.ofInt (10 ^ fp.length)))
    | _, _ => none

/-- The loop body of `colors.saturate_colors`: `colors[i] = saturate_color(colors[i], amt)`
for every index `i` not in `[0, 7, 8, 15]`, element by element. -/
def satLoopV (a : Q) : List String → Nat → Except PyErr (List String)
  | [], _ => .ok []
  | c :: cs, i =>
    if i = 0 ∨ i = 7 ∨ i = 8 ∨ i = 15 then
      match satLoopV a cs (i + 1) with
      | .error e => .error e
      | .ok out => .ok (c :: out)
    else
      match saturate_color c a with
      | none => .error .formatError
      | some c' =>
        match satLoopV a cs (i + 1) with
        | .error e => .error e
        | .ok out => .ok (c' :: out)

/-- `colors.saturate_colors`: the guard is `if amount and float(amount) <= 1.0`.
`amount` is a string in this program (`get` passes `sat`), so Python truthiness
is `amount != ""`; note that the string `"0"` is truthy.  `float(amount)` can
raise on the truthy path. -/
def saturate_colors (colors : List String) (amount : String) : Except PyErr (List String) :=
  if amount = "" then .ok colors
  else
    match pyFloat amount with
    | none => .error .formatError
    | some a => if a ≤ 1 then satLoopV a colors 0 else .ok colors

/-- The `for color in colors:` loop of `colors.generic_adjust` in light mode:
each iteration rebinds only the local name `color`, so the list is never
modified - but the two util calls still execute and can raise on a malformed
element. -/
def lightLoop : List String → Except PyErr Unit
  | [] => .ok ()
  | c :: cs =>
    match saturate_color c (6 / 10) with
    | none => .error .formatError
    | some c1 =>
      match darken_color c1 (1 / 2) with
      | none => .error .formatError
      | some _ => lightLoop cs

/-- Python `colors[i]` read. -/
def pyGet {α : Type} (l : List α) (i : Nat) : Except PyErr α :=
  match l.get? i with
  | some a => .ok a
  | none => .error .indexError

/-- Python `colors[i] = v` item assignment (as a value-level list update). -/
def pySet {α : Type} (l : List α) (i : Nat) (v : α) : Except PyErr (List α) :=
  if i < l.length then .ok (l.set i v) else .error .indexError

/-- Lift the failure of a util color operation (a raised `ValueError`). -/
def liftOpt {α : Type} (o : Option α) : Except PyErr α :=
  match o with
  | some a => .ok a
  | none => .error .formatError

/-- `colors.generic_adjust` (value semantics).  In light mode the initial
per-element loop has no effect on the list (it rebinds a local name), after
which slots 0, 7, 8, 15 are reassigned; each right-hand side reads the current
list, so `colors[7]` and `colors[8]` derive from the NEW slot 0. -/
def generic_adjust (colors : List String) (light : Bool) : Except PyErr (List String) :=
  if light then
    match lightLoop colors with
    | .error e => .error e
    | .ok _ =>
      match pyGet colors 0 with
      | .error e => .error e
      | .ok a0 =>
        match liftOpt (lighten_color a0 (95 / 100)) with
        | .error e => .error e
        | .ok c0 =>
          match pySet colors 0 c0 with
          | .error e => .error e
          | .ok cs0 =>
            match pyGet cs0 0 with
            | .error e => .error e
            | .ok b0 =>
              match liftOpt (darken_color b0 (75 / 100)) with
              | .error e => .error e
              | .ok c7 =>
                match pySet cs0 7 c7 with
                | .error e => .error e
                | .ok cs7 =>
                  match pyGet cs7 0 with
                  | .error e => .error e
                  | .ok b0' =>
                    match liftOpt (darken_color b0' (25 / 100)) with
                    | .error e => .error e
                    | .ok c8 =>
                      match pySet cs7 8 c8 with
                      | .error e => .error e
                      | .ok cs8 =>
                        match pyGet cs8 7 with
                        | .error e => .error e
                        | .ok v7 =>
                          match pySet cs8 15 v7 with
                          | .error e => .error e
                          | .ok cs15 => .ok cs15
  else
    match pyGet colors 0 with
    | .error e => .error e
    | .ok a0 =>
      match liftOpt (darken_color a0 (80 / 100)) with
      | .error e => .error e
      | .ok c0 =>
        match pySet colors 0 c0 with
        | .error e => .error e
        | .ok cs0 =>
          match pyGet cs0 0 with
          | .error e => .error e
          | .ok b0 =>
            match liftOpt (lighten_color b0 (75 / 100)) with
            | .error e => .error e
            | .ok c7 =>
              match pySet cs0 7 c7 with
              | .error e => .error e
              | .ok cs7 =>
                match pyGet cs7 0 with
                | .error e => .error e
                | .ok b0' =>
                  match liftOpt (lighten_color b0' (25 / 100)) with
                  | .error e => .error e
                  | .ok c8 =>
                    match pySet cs7 8 c8 with
                    | .error e => .error e
                    | .ok cs8 =>
                      match pyGet cs8 7 with
                      | .error e => .error e
                      | .ok v7 =>
                        match pySet cs8 15 v7 with
                        | .error e => .error e
                        | .ok cs15 => .ok cs15

/-- `re.sub("[/|\\|.]", "_", img)` of `colors.cache_fname`.  The pattern string
is the character class `[/|\|.]`; inside a class `\|` is an escaped literal
`|`, so the class matches `/`, `|` and `.` - the backslash itself is NOT in
the class. -/
def sanitizeImg (s : String) : String :=
  String.mk (s.data.map (fun c => if c = '/' ∨ c = '|' ∨ c = '.' then '_' else c))

/-- `colors.cache_fname`: returns the path parts
`[cache_dir, "schemes", "%s_%s_%s_%s_%s_%s.json" % (file_name, color_type, backend, sat, file_size, version)]`.
`file_size` (`os.path.getsize(img)`) and the `settings.__cache_version__`
constant are external inputs, passed here as parameters. -/
def cache_fname (img backend : String) (light : Bool) (cache_dir sat : String)
    (fileSize : Nat) (version : String) : List String :=
  [cache_dir, "schemes",
    sanitizeImg img ++ "_" ++ (if light then "light" else "dark") ++ "_" ++
      backend ++ "_" ++ sat ++ "_" ++ toString fileSize ++ "_" ++ version ++ ".json"]

/-- The sanitization exactly as the claim states it: every `/`, `\` and `.`
replaced by `_` "and no other character replaced". -/
def claimSanitize (s : String) : String :=
  String.mk (s.data.map (fun c => if c = '/' ∨ c = '\\' ∨ c = '.' then '_' else c))

/-- The cache path exactly as the claim states it, built from `claimSanitize`. -/
def claimCacheFname (img backend : String) (light : Bool) (cache_dir sat : String)
    (fileSize : Nat) (version : String) : List String :=
  [cache_dir, "schemes",
    claimSanitize img ++ "_" ++ (if light then "light" else "dark") ++ "_" ++
      backend ++ "_" ++ sat ++ "_" ++ toString fileSize ++ "_" ++ version ++ ".json"]

/-- The scheme dictionary built by `colors.colors_to_dict` (and persisted as
the JSON cache blob).  The `colors` field holds the values of
`color0 .. color{n-1}` in slot order; `special.background/foreground/cursor`
are flattened into three fields. -/
structure Scheme where
  wallpaper : String
  alpha : String
  background : Option String
  foreground : Option String
  cursor : Option String
  colors : List (Option String)
deriving DecidableEq

/-- `colors.colors_to_dict`: match the colors, then assemble the scheme;
`special.background` is `cs[0]`, `special.foreground` and `special.cursor` are
`cs[15]`.  `alpha` is `util.Color.alpha_num`, the process-wide alpha
configuration, passed as a parameter. -/
def colors_to_dict (colors : List String) (img : String) (alpha : String) :
    Except PyErr Scheme :=
  match match_colors colors with
  | .error e => .error e
  | .ok cs =>
    match pyGet cs 0 with
    | .error e => .error e
    | .ok bg =>
      match pyGet cs 15 with
      | .error e => .error e
      | .ok fg =>
        .ok { wallpaper := img, alpha := alpha, background := bg,
              foreground := fg, cursor := fg, colors := cs }

/-- `os.path.join` on POSIX for the relative parts produced here. -/
def joinPath (parts : List String) : String := String.intercalate "/" parts

/-- Modelled from the spec (§4.4, §3 Cache Entry): the persisted cache files as
a path-indexed store; `util.save_file_json` and `theme.file` are not among the
given sources, and the spec states a cached Scheme is "loaded verbatim on cache
hit", so saving prepends and loading finds the most recent entry for a path. -/
def fsLookup (fs : List (String × Scheme)) (path : String) : Option Scheme :=
  match fs with
  | [] => none
  | (p, s) :: rest => if p = path then some s else fsLookup rest path

/-- `colors.get`: compute the cache path; on a hit, return the stored scheme
with its `alpha` field overwritten by the current configuration; on a miss,
saturate the backend's colors, assemble the scheme and persist it.  Backend
resolution (`get_backend`, dynamic import, fallback) is external to the given
sources and folded into the `backendFn` parameter, which is only invoked on
the miss path. -/
def get (backendFn : String → Bool → List String) (alpha : String)
    (fs : List (String × Scheme)) (img : String) (light : Bool) (backend : String)
    (cache_dir : String) (sat : String) (fileSize : Nat) (version : String) :
    Except PyErr (Scheme × List (String × Scheme)) :=
  let cache_file := joinPath (cache_fname img backend light cache_dir sat fileSize version)
  match fsLookup fs cache_file with
  | some s => .ok ({ s with alpha := alpha }, fs)
  | none =>
    match saturate_colors (backendFn img light) sat with
    | .error e => .error e
    | .ok sc =>
      match colors_to_dict sc img alpha with
      | .error e => .error e
      | .ok scheme => .ok (scheme, (cache_file, scheme) :: fs)

/-- A store of Python list objects: references are indices into the store.
Used to state the in-place/aliasing behaviour of the post-processing
functions. -/
def Store : Type := List (List String)

/-- Read `colors[i]` through a list reference. -/
def pyListRead (st : Store) (r i : Nat) : Except PyErr String :=
  match (List.getD st r []).get? i with
  | some c => .ok c
  | none => .error .indexError

/-- Write `colors[i] = v` through a list reference. -/
def pyListWrite (st : Store) (r i : Nat) (v : String) : Except PyErr Store :=
  if i < (List.getD st r []).length then .ok (List.set st r ((List.getD st r []).set i v))
  else .error .indexError

/-- The loop of `colors.saturate_colors` acting on the caller's list object:
each non-excluded index is read, saturated and written back in place; on an
exception the store keeps the writes already performed (Python semantics).
The fuel `k` is the (unchanging) list length captured by `enumerate`. -/
def satHeapLoop (a : Q) : Store → Nat → Nat → Nat → Except PyErr Unit × Store
  | st, _, _, 0 => (.ok (), st)
  | st, r, i, k + 1 =>
    if i = 0 ∨ i = 7 ∨ i = 8 ∨ i = 15 then satHeapLoop a st r (i + 1) k
    else
      match pyListRead st r i with
      | .error e => (.error e, st)
      | .ok c =>
        match saturate_color c a with
        | none => (.error .formatError, st)
        | some c' =>
          match pyListWrite st r i c' with
          | .error e => (.error e, st)
          | .ok st' => satHeapLoop a st' r (i + 1) k

/-- `colors.saturate_colors` acting on the caller's list object; it returns the
very reference it was given (`return colors`), mutating through it. -/
def saturate_colors_heap (st : Store) (r : Nat) (amount : String) :
    Except PyErr Nat × Store :=
  if amount = "" then (.ok r, st)
  else
    match pyFloat amount with
    | none => (.error .formatError, st)
    | some a =>
      if a ≤ 1 then
        ((satHeapLoop a st r 0 (List.getD st r []).length).1.map (fun _ => r),
         (satHeapLoop a st r 0 (List.getD st r []).length).2)
      else (.ok r, st)

/-- The slot-assignment chain shared by both branches of
`colors.generic_adjust`, acting on the caller's list object: slot 0 gets
`op0(colors[0])`, then - reading the NEW slot 0 - slot 7 gets
`op7(colors[0])`, slot 8 gets `op8(colors[0])`, and slot 15 gets `colors[7]`.
In light mode `op0/op7/op8` are lighten 0.95 / darken 0.75 / darken 0.25; in
dark mode darken 0.80 / lighten 0.75 / lighten 0.25. -/
def adjustCore (st : Store) (r : Nat) (op0 op7 op8 : String → Option String) :
    Except PyErr Nat × Store :=
  match pyListRead st r 0 with
  | .error e => (.error e, st)
  | .ok a0 =>
    match op0 a0 with
    | none => (.error .formatError, st)
    | some c0 =>
      match pyListWrite st r 0 c0 with
      | .error e => (.error e, st)
      | .ok st0 =>
        match pyListRead st0 r 0 with
        | .error e => (.error e, st0)
        | .ok b0 =>
          match op7 b0 with
          | none => (.error .formatError, st0)
          | some c7 =>
            match pyListWrite st0 r 7 c7 with
            | .error e => (.error e, st0)
            | .ok st7 =>
              match pyListRead st7 r 0 with
              | .error e => (.error e, st7)
              | .ok b0' =>
                match op8 b0' with
                | none => (.error .formatError, st7)
                | some c8 =>
                  match pyListWrite st7 r 8 c8 with
                  | .error e => (.error e, st7)
                  | .ok st8 =>
                    match pyListRead st8 r 7 with
                    | .error e => (.error e, st8)
                    | .ok v7 =>
                      match pyListWrite st8 r 15 v7 with
                      | .error e => (.error e, st8)
                      | .ok st15 => (.ok r, st15)

/-- `colors.generic_adjust` acting on the caller's list object: slot
assignments write through the given reference and the same reference is
returned (`return colors`).  In light mode the initial `for color in colors:`
loop rebinds only a local name (its util calls can still raise). -/
def generic_adjust_heap (st : Store) (r : Nat) (light : Bool) :
    Except PyErr Nat × Store :=
  if light then
    match lightLoop (List.getD st r []) with
    | .error e => (.error e, st)
    | .ok _ =>
      adjustCore st r (fun c => lighten_color c (95 / 100))
        (fun c => darken_color c (75 / 100)) (fun c => darken_color c (25 / 100))
  else
    adjustCore st r (fun c => darken_color c (80 / 100))
      (fun c => lighten_color c (75 / 100)) (fun c => lighten_color c (25 / 100))

/- Order facts about `Q`, obtained through the interpretation `Q.val`. -/

lemma Q.not_lt' {a b : Q} : ¬(a < b) ↔ b ≤ a := by
  rw [Q.lt_iff, Q.le_iff]; exact not_lt

lemma Q.not_le' {a b : Q} : ¬(a ≤ b) ↔ b < a := by
  rw [Q.lt_iff, Q.le_iff]; exact not_le

lemma Q.le_refl' (a : Q) : a ≤ a := by rw [Q.le_iff]

lemma Q.le_trans' {a b c : Q} (h1 : a ≤ b) (h2 : b ≤ c) : a ≤ c := by
  rw [Q.le_iff] at h1 h2 ⊢; exact le_trans h1 h2

lemma Q.not_le_of_le_of_lt {a b c : Q} (h1 : a ≤ b) (h2 : b < c) : ¬(c ≤ a) := by
  rw [Q.le_iff] at h1 ⊢; rw [Q.lt_iff] at h2; exact not_le.mpr (lt_of_le_of_lt h1 h2)

lemma Q.le_of_eq_of_le {a b c : Q} (h1 : a = b) (h2 : b ≤ c) : a ≤ c := h1 ▸ h2

lemma emap_ok {α β ε : Type} (f : α → β) (a : α) :
    (Except.ok a : Except ε α).map f = .ok (f a) := rfl

lemma emap_error {α β ε : Type} (f : α → β) (e : ε) :
    (Except.error e : Except ε α).map f = .error e := rfl

/- Lemmas relating the source's `min`/`remove` loop to the spec's description
of the slot matcher. -/

lemma specPick_key (key : String → Option Q) :
    ∀ {cs : List String} {d : String} {kd : Q} {rest : List String},
      specPick key cs = .ok (d, kd, rest) → key d = some kd := by
  intro cs
  induction cs with
  | nil => intro d kd rest h; simp [specPick] at h
  | cons c cs ih =>
    intro d kd rest h
    cases hc : key c with
    | none => simp [specPick, hc] at h
    | some kc =>
      cases cs with
      | nil =>
        simp [specPick, hc] at h
        obtain ⟨h1, h2, h3⟩ := h
        rw [← h1, ← h2]; exact hc
      | cons y ys =>
        rw [specPick, hc] at h
        simp only at h
        cases hp : specPick key (y :: ys) with
        | error e => rw [hp] at h; simp at h
        | ok p =>
          obtain ⟨d', kd', rest'⟩ := p
          rw [hp] at h
          simp only at h
          by_cases hle : kc ≤ kd'
          · rw [if_pos hle] at h
            obtain ⟨h1, h2, h3⟩ := by simpa using h
            rw [← h1, ← h2]; exact hc
          · rw [if_neg hle] at h
            obtain ⟨h1, h2, h3⟩ := by simpa using h
            rw [← h1, ← h2]; exact ih hp

lemma specPick_min (key : String → Option Q) :
    ∀ {cs : List String} {d : String} {kd : Q} {rest : List String},
      specPick key cs = .ok (d, kd, rest) →
      ∀ c ∈ cs, ∃ kc, key c = some kc ∧ kd ≤ kc := by
  intro cs
  induction cs with
  | nil => intro d kd rest h; simp [specPick] at h
  | cons c cs ih =>
    intro d kd rest h
    cases hc : key c with
    | none => simp [specPick, hc] at h
    | some kc =>
      cases cs with
      | nil =>
        simp [specPick, hc] at h
        obtain ⟨h1, h2, h3⟩ := h
        intro e he
        simp at he
        subst he
        exact ⟨kc, hc, by rw [← h2]; exact Q.le_refl' kc⟩
      | cons y ys =>
        rw [specPick, hc] at h
        simp only at h
        cases hp : specPick key (y :: ys) with
        | error e => rw [hp] at h; simp at h
        | ok p =>
          obtain ⟨d', kd', rest'⟩ := p
          rw [hp] at h
          simp only at h
          by_cases hle : kc ≤ kd'
          · rw [if_pos hle] at h
            obtain ⟨h1, h2, h3⟩ := by simpa using h
            intro e he
            rcases List.mem_cons.mp he with he | he
            · subst he; exact ⟨kc, hc, by rw [← h2]; exact Q.le_refl' kc⟩
            · obtain ⟨ke, hke, hlee⟩ := ih hp e he
              exact ⟨ke, hke, by rw [← h2]; exact Q.le_trans' hle hlee⟩
          · rw [if_neg hle] at h
            obtain ⟨h1, h2, h3⟩ := by simpa using h
            intro e he
            rcases List.mem_cons.mp he with he | he
            · subst he
              refine ⟨kc, hc, ?_⟩
              rw [← h2]
              rw [Q.not_le'] at hle
              rw [Q.le_iff]; rw [Q.lt_iff] at hle; exact le_of_lt hle
            · obtain ⟨ke, hke, hlee⟩ := ih hp e he
              exact ⟨ke, hke, by rw [← h2]; exact hlee⟩

lemma specPick_perm (key : String → Option Q) :
    ∀ {cs : List String} {d : String} {kd : Q} {rest : List String},
      specPick key cs = .ok (d, kd, rest) → cs.Perm (d :: rest) := by
  intro cs
  induction cs with
  | nil => intro d kd rest h; simp [specPick] at h
  | cons c cs ih =>
    intro d kd rest h
    cases hc : key c with
    | none => simp [specPick, hc] at h
    | some kc =>
      cases cs with
      | nil =>
        simp [specPick, hc] at h
        obtain ⟨h1, h2, h3⟩ := h
        rw [← h1, ← h3]
      | cons y ys =>
        rw [specPick, hc] at h
        simp only at h
        cases hp : specPick key (y :: ys) with
        | error e => rw [hp] at h; simp at h
        | ok p =>
          obtain ⟨d', kd', rest'⟩ := p
          rw [hp] at h
          simp only at h
          by_cases hle : kc ≤ kd'
          · rw [if_pos hle] at h
            obtain ⟨h1, h2, h3⟩ := by simpa using h
            rw [← h1, ← h3]
          · rw [if_neg hle] at h
            obtain ⟨h1, h2, h3⟩ := by simpa using h
            rw [← h1, ← h3]
            exact ((ih hp).cons c).trans (List.Perm.swap d' c rest')

lemma specPick_cons_error (key : String → Option Q) {c : String} {kc : Q}
    {cs : List String} {e : PyErr} (hc : key c = some kc)
    (h : specPick key (c :: cs) = .error e) :
    cs ≠ [] ∧ specPick key cs = .error e := by
  cases cs with
  | nil => simp [specPick, hc] at h
  | cons y ys =>
    rw [specPick, hc] at h
    simp only at h
    cases hp : specPick key (y :: ys) with
    | error e' =>
      rw [hp] at h
      simp only at h
      cases h
      exact ⟨by simp, rfl⟩
    | ok p =>
      obtain ⟨d', kd', rest'⟩ := p
      rw [hp] at h
      simp only at h
      by_cases hle : kc ≤ kd'
      · rw [if_pos hle] at h; cases h
      · rw [if_neg hle] at h; cases h

lemma specPick_remove (key : String → Option Q) :
    ∀ {cs : List String} {d : String} {kd : Q} {rest : List String},
      specPick key cs = .ok (d, kd, rest) → pyRemove d cs = some rest := by
  intro cs
  induction cs with
  | nil => intro d kd rest h; simp [specPick] at h
  | cons c cs ih =>
    intro d kd rest h
    cases hc : key c with
    | none => simp [specPick, hc] at h
    | some kc =>
      cases cs with
      | nil =>
        simp [specPick, hc] at h
        obtain ⟨h1, h2, h3⟩ := h
        simp [pyRemove, h1, ← h3]
      | cons y ys =>
        rw [specPick, hc] at h
        simp only at h
        cases hp : specPick key (y :: ys) with
        | error e => rw [hp] at h; simp at h
        | ok p =>
          obtain ⟨d', kd', rest'⟩ := p
          rw [hp] at h
          simp only at h
          by_cases hle : kc ≤ kd'
          · rw [if_pos hle] at h
            obtain ⟨h1, h2, h3⟩ := by simpa using h
            simp [pyRemove, h1, ← h3]
          · rw [if_neg hle] at h
            obtain ⟨h1, h2, h3⟩ := by simpa using h
            have hkd' : key d' = some kd' := specPick_key key hp
            have hne : c ≠ d' := by
              intro hcd
              rw [hcd, hkd'] at hc
              have h4 : kd' = kc := Option.some.inj hc
              exact hle (by rw [h4]; exact Q.le_refl' kc)
            have hr := ih hp
            rw [← h1, ← h3]
            rw [show pyRemove d' (c :: y :: ys) =
              if c = d' then some (y :: ys) else (pyRemove d' (y :: ys)).map (c :: ·) from rfl]
            rw [if_neg hne, hr]
            rfl

lemma pyMinAux_eq_specPick (key : String → Option Q) :
    ∀ (xs : List String) (best : String) (bk : Q), key best = some bk →
      pyMinAux key best bk xs = (specPick key (best :: xs)).map (fun p => p.1) := by
  intro xs
  induction xs with
  | nil => intro best bk hb; simp [pyMinAux, specPick, hb, emap_ok]
  | cons x xs ih =>
    intro best bk hb
    cases hx : key x with
    | none =>
      rw [pyMinAux, hx]
      cases xs with
      | nil => simp [specPick, hb, hx, emap_error]
      | cons y ys => simp [specPick, hb, hx, emap_error]
    | some kx =>
      rw [pyMinAux, hx]
      simp only
      cases hp : specPick key (x :: xs) with
      | error e =>
        obtain ⟨hne, he⟩ := specPick_cons_error key hx hp
        obtain ⟨y, ys, rfl⟩ := List.exists_cons_of_ne_nil hne
        have hL : specPick key (best :: x :: y :: ys) = .error e := by
          rw [specPick, hb]
          simp only
          rw [hp]
        have hB : specPick key (best :: y :: ys) = .error e := by
          rw [specPick, hb]
          simp only
          rw [he]
        rw [hL, emap_error]
        by_cases hlt : kx < bk
        · rw [if_pos hlt, ih x kx hx, hp, emap_error]
        · rw [if_neg hlt, ih best bk hb, hB, emap_error]
      | ok p =>
        obtain ⟨d, kd, rest⟩ := p
        have hkd : kd ≤ kx := by
          obtain ⟨kc, hkc, hle⟩ := specPick_min key hp x (by simp)
          rw [hx] at hkc
          cases hkc
          exact hle
        have hL : specPick key (best :: x :: xs) =
            if bk ≤ kd then .ok (best, bk, x :: xs) else .ok (d, kd, best :: rest) := by
          rw [specPick, hb]
          simp only
          rw [hp]
        rw [hL]
        by_cases hlt : kx < bk
        · rw [if_pos hlt, ih x kx hx, hp]
          have hnb : ¬ (bk ≤ kd) := by
            rw [Q.not_le']
            rw [Q.lt_iff]
            rw [Q.le_iff] at hkd
            rw [Q.lt_iff] at hlt
            exact lt_of_le_of_lt hkd hlt
          rw [if_neg hnb, emap_ok, emap_ok]
        · rw [if_neg hlt, ih best bk hb]
          rw [Q.not_lt'] at hlt
          cases xs with
          | nil =>
            simp [specPick, hx] at hp
            obtain ⟨h1, h2, h3⟩ := hp
            rw [show specPick key [best] = .ok (best, bk, []) by simp [specPick, hb]]
            rw [if_pos (by rw [← h2]; exact hlt), emap_ok, emap_ok]
          | cons y ys =>
            rw [specPick, hx] at hp
            simp only at hp
            cases hq : specPick key (y :: ys) with
            | error e => rw [hq] at hp; simp at hp
            | ok q =>
              obtain ⟨d', kd', rest'⟩ := q
              rw [hq] at hp
              simp only at hp
              have hBs : specPick key (best :: y :: ys) =
                  if bk ≤ kd' then .ok (best, bk, y :: ys) else .ok (d', kd', best :: rest') := by
                rw [specPick, hb]
                simp only
                rw [hq]
              rw [hBs]
              by_cases hle : kx ≤ kd'
              · rw [if_pos hle] at hp
                obtain ⟨h1, h2, h3⟩ := by simpa using hp
                have hbk : bk ≤ kd' := Q.le_trans' hlt hle
                rw [if_pos hbk, if_pos (by rw [← h2]; exact hlt), emap_ok, emap_ok]
              · rw [if_neg hle] at hp
                obtain ⟨h1, h2, h3⟩ := by simpa using hp
                by_cases hbk : bk ≤ kd'
                · rw [if_pos hbk, if_pos (by rw [← h2]; exact hbk), emap_ok, emap_ok]
                · rw [if_neg hbk, if_neg (by rw [← h2]; exact hbk), emap_ok, emap_ok]
                  simp [h1]

lemma pyMin_eq_specPick (key : String → Option Q) (cs : List String) :
    pyMin key cs = (specPick key cs).map (fun p => p.1) := by
  cases cs with
  | nil => rfl
  | cons c cs =>
    cases hc : key c with
    | none =>
      cases cs with
      | nil => simp [pyMin, specPick, hc, emap_error]
      | cons y ys => simp [pyMin, specPick, hc, emap_error]
    | some kc =>
      rw [pyMin, hc]
      exact pyMinAux_eq_specPick key cs c kc hc

lemma matchGo_eq_specMatchGo :
    ∀ (refs : List (Q × Q × Q)) (cs : List String) (out : List (Option String)) (i : Nat),
      matchGo refs cs out i = (specMatchGo refs cs).map (fun sel => overwrite out i sel) := by
  intro refs
  induction refs with
  | nil => intro cs out i; simp [matchGo, specMatchGo, overwrite, emap_ok]
  | cons x xs ih =>
    intro cs out i
    rw [matchGo, pyMin_eq_specPick (colorDiffSq x) cs]
    cases hp : specPick (colorDiffSq x) cs with
    | error e => simp [specMatchGo, hp, emap_error]
    | ok p =>
      obtain ⟨d, kd, rest⟩ := p
      simp only [Except.map]
      rw [specPick_remove (colorDiffSq x) hp]
      rw [specMatchGo, hp]
      simp only
      rw [ih rest (out.set i (some d)) (i + 1)]
      cases hs : specMatchGo xs rest with
      | error e => rfl
      | ok sel => rfl

lemma specMatchGo_length :
    ∀ {refs : List (Q × Q × Q)} {cs sel : List String},
      specMatchGo refs cs = .ok sel → sel.length = refs.length := by
  intro refs
  induction refs with
  | nil => intro cs sel h; simp [specMatchGo] at h; simp [← h]
  | cons x xs ih =>
    intro cs sel h
    rw [specMatchGo] at h
    cases hp : specPick (colorDiffSq x) cs with
    | error e => rw [hp] at h; cases h
    | ok p =>
      obtain ⟨d, kd, rest⟩ := p
      rw [hp] at h
      simp only at h
      cases hs : specMatchGo xs rest with
      | error e => rw [hs] at h; cases h
      | ok sel' =>
        rw [hs] at h
        cases h
        simp [ih hs]

lemma specMatchGo_perm :
    ∀ {refs : List (Q × Q × Q)} {cs sel : List String},
      cs.length = refs.length → specMatchGo refs cs = .ok sel → sel.Perm cs := by
  intro refs
  induction refs with
  | nil =>
    intro cs sel hlen h
    simp [specMatchGo] at h
    rw [List.length_nil, List.length_eq_zero] at hlen
    subst hlen
    simp [← h]
  | cons x xs ih =>
    intro cs sel hlen h
    rw [specMatchGo] at h
    cases hp : specPick (colorDiffSq x) cs with
    | error e => rw [hp] at h; cases h
    | ok p =>
      obtain ⟨d, kd, rest⟩ := p
      rw [hp] at h
      simp only at h
      cases hs : specMatchGo xs rest with
      | error e => rw [hs] at h; cases h
      | ok sel' =>
        rw [hs] at h
        cases h
        have hperm := specPick_perm (colorDiffSq x) hp
        have hr : rest.length = xs.length := by
          have := hperm.length_eq
          simp at this hlen
          omega
        exact ((ih hr hs).cons d).trans hperm.symm

lemma colorDiffSq_isSome (x : Q × Q × Q) (c : String) :
    (colorDiffSq x c).isSome = (hex_to_rgb c.data).isSome := by
  rw [colorDiffSq]
  cases hex_to_rgb c.data with
  | none => rfl
  | some t => obtain ⟨r, g, b⟩ := t; rfl

lemma specPick_ok_of_valid (key : String → Option Q) :
    ∀ {cs : List String}, (∀ c ∈ cs, (key c).isSome) → cs ≠ [] →
      ∃ d kd rest, specPick key cs = .ok (d, kd, rest) := by
  intro cs
  induction cs with
  | nil => intro _ hne; exact absurd rfl hne
  | cons c cs ih =>
    intro hv _
    have hc : (key c).isSome := hv c (by simp)
    obtain ⟨kc, hkc⟩ := Option.isSome_iff_exists.mp hc
    cases cs with
    | nil => exact ⟨c, kc, [], by simp [specPick, hkc]⟩
    | cons y ys =>
      obtain ⟨d, kd, rest, hp⟩ := ih (fun e he => hv e (by simp [he])) (by simp)
      rw [specPick, hkc]
      simp only
      rw [hp]
      simp only
      by_cases hle : kc ≤ kd
      · exact ⟨c, kc, y :: ys, by rw [if_pos hle]⟩
      · exact ⟨d, kd, c :: rest, by rw [if_neg hle]⟩

lemma specMatchGo_underflow :
    ∀ (refs : List (Q × Q × Q)) (cs : List String),
      (∀ c ∈ cs, (hex_to_rgb c.data).isSome) → cs.length < refs.length →
      specMatchGo refs cs = .error .underflow := by
  intro refs
  induction refs with
  | nil => intro cs _ h; simp at h
  | cons x xs ih =>
    intro cs hv hlen
    cases cs with
    | nil => rfl
    | cons c cs' =>
      have hvk : ∀ e ∈ c :: cs', (colorDiffSq x e).isSome := by
        intro e he; rw [colorDiffSq_isSome]; exact hv e he
      obtain ⟨d, kd, rest, hp⟩ := specPick_ok_of_valid (colorDiffSq x) hvk (by simp)
      rw [specMatchGo, hp]
      simp only
      have hperm := specPick_perm (colorDiffSq x) hp
      have hmem : ∀ e ∈ rest, (hex_to_rgb e.data).isSome := by
        intro e he
        exact hv e (hperm.mem_iff.mpr (by simp [he]))
      have hr : rest.length < xs.length := by
        have := hperm.length_eq
        simp at this hlen ⊢
        omega
      rw [ih rest hmem hr]

lemma set_append_len {α : Type} (pre : List α) (r0 : α) (rest : List α) (v : α) :
    (pre ++ r0 :: rest).set pre.length v = pre ++ v :: rest := by
  induction pre with
  | nil => rfl
  | cons p ps ih => simp [List.set, ih]

lemma overwrite_append (sel : List String) :
    ∀ (pre rest : List (Option String)), rest.length = sel.length →
      overwrite (pre ++ rest) pre.length sel = pre ++ sel.map some := by
  induction sel with
  | nil =>
    intro pre rest h
    simp only [List.length_nil, List.length_eq_zero] at h
    subst h
    simp [overwrite]
  | cons s ss ih =>
    intro pre rest h
    cases rest with
    | nil => simp at h
    | cons r0 rest' =>
      rw [overwrite, set_append_len]
      rw [show pre ++ some s :: rest' = (pre ++ [some s]) ++ rest' by simp]
      rw [show pre.length + 1 = (pre ++ [some s]).length by simp]
      rw [ih (pre ++ [some s]) rest' (by simpa using h)]
      simp

lemma match_colors_shape (colors : List String) (h : colors.length = 16) :
    match_colors colors = (specMatchGo x_colors colors).map (fun sel => sel.map some) := by
  rw [match_colors, matchGo_eq_specMatchGo]
  cases hs : specMatchGo x_colors colors with
  | error e => rfl
  | ok sel =>
    rw [emap_ok, emap_ok]
    have hlen : sel.length = 16 := by
      have h2 := specMatchGo_length hs
      rw [h2]
      rfl
    congr 1
    calc overwrite (List.replicate colors.length none) 0 sel
        = overwrite (([] : List (Option String)) ++ List.replicate sel.length (none : Option String))
            (List.length ([] : List (Option String))) sel := by rw [h, hlen]; rfl
      _ = ([] : List (Option String)) ++ sel.map some :=
          overwrite_append sel [] _ (by simp)
      _ = sel.map some := by simp

/-- The 16 reference palette colors as hex strings; a convenient concrete
input for witnesses (each slot's nearest reference color is itself). -/
def palette16 : List String :=
  ["#000000", "#cd0000", "#00cd00", "#cdcd00", "#0000ee", "#cd00cd", "#00cdcd", "#e5e5e5",
   "#ff0000", "#00ff00", "#ffff00", "#5c5cff", "#ff00ff", "#00ffff", "#7f7f7f", "#ffffff"]

/-- C1: for every list of exactly 16 extracted colors, `match_colors` processes
the reference slots in fixed order, assigning each slot the remaining extracted
color with minimum `color_diff` (first encountered in the remaining pool, in
original input order, on an exact tie) and removing it from the pool - i.e. it
agrees with the spec's greedy matcher `specMatchColors`. -/
theorem match_colors_greedy_spec (colors : List String) (h : colors.length = 16) :
    match_colors colors = (specMatchColors colors).map (fun sel => sel.map some) := by
  rw [match_colors_shape colors h]
  rfl

theorem match_colors_greedy_spec_witness :
    palette16.length = 16 ∧
      match_colors palette16 = (specMatchColors palette16).map (fun sel => sel.map some) :=
  ⟨by decide, match_colors_greedy_spec palette16 (by decide)⟩

/-- C2: for every input list of exactly 16 colors, a successful `match_colors`
output is (as the underlying selection list) a permutation of the input - no
color invented or dropped - and pairwise-distinct inputs give pairwise-distinct
output slots. -/
theorem match_colors_permutation (colors : List String) (out : List (Option String))
    (h16 : colors.length = 16) (hok : match_colors colors = .ok out) :
    ∃ sel : List String, out = sel.map some ∧ sel.Perm colors ∧
      (colors.Nodup → sel.Nodup) := by
  rw [match_colors_shape colors h16] at hok
  cases hs : specMatchGo x_colors colors with
  | error e => rw [hs, emap_error] at hok; cases hok
  | ok sel =>
    rw [hs, emap_ok] at hok
    have hperm : sel.Perm colors := specMatchGo_perm (by rw [h16]; rfl) hs
    exact ⟨sel, (Except.ok.inj hok).symm, hperm, fun hn => hperm.nodup_iff.mpr hn⟩

theorem match_colors_permutation_witness :
    palette16.length = 16 ∧ match_colors palette16 = .ok (palette16.map some) ∧
      (∃ sel : List String, palette16.map some = sel.map some ∧ sel.Perm palette16 ∧
        (palette16.Nodup → sel.Nodup)) :=
  ⟨by decide, by decide,
    match_colors_permutation palette16 (palette16.map some) (by decide) (by decide)⟩

/-- C6: for every extracted color list (of valid colors) with fewer than 16
entries, `match_colors` fails - with the underflow error (`min()` on an
exhausted pool; the spec's UnderflowError) - rather than silently repeating
colors to fill the 16 slots. -/
theorem match_colors_underflow (colors : List String) (h : colors.length < 16)
    (hv : ∀ c ∈ colors, (hex_to_rgb c.data).isSome = true) :
    match_colors colors = .error .underflow := by
  rw [match_colors, matchGo_eq_specMatchGo,
    specMatchGo_underflow x_colors colors hv
      (by rw [show x_colors.length = 16 from rfl]; exact h)]
  rfl

theorem match_colors_underflow_witness :
    (palette16.take 15).length < 16 ∧
      (∀ c ∈ palette16.take 15, (hex_to_rgb c.data).isSome = true) ∧
      match_colors (palette16.take 15) = .error .underflow :=
  ⟨by decide, by decide,
    match_colors_underflow (palette16.take 15) (by decide) (by decide)⟩

/- Character-level facts used to evaluate the hex parser on symbolic digits. -/

lemma hexDigit_range (c : Char) (v : Nat) (h : hexDigitVal c = some v) :
    (48 ≤ c.toNat ∧ c.toNat ≤ 57) ∨ (97 ≤ c.toNat ∧ c.toNat ≤ 102) ∨
      (65 ≤ c.toNat ∧ c.toNat ≤ 70) := by
  rw [hexDigitVal] at h
  split_ifs at h with h1 h2 h3
  · exact Or.inl h1
  · exact Or.inr (Or.inl h2)
  · exact Or.inr (Or.inr h3)

lemma hexDigit_not_ws (c : Char) (v : Nat) (h : hexDigitVal c = some v) :
    pyWhitespace c = false := by
  have hr := hexDigit_range c v h
  rw [pyWhitespace, decide_eq_false_iff_not]
  omega

lemma hexDigit_ne (c : Char) (v : Nat) (h : hexDigitVal c = some v) :
    c ≠ '#' ∧ c ≠ '+' ∧ c ≠ '-' ∧ c ≠ '_' ∧ c ≠ 'x' ∧ c ≠ 'X' := by
  have hr := hexDigit_range c v h
  refine ⟨?_, ?_, ?_, ?_, ?_, ?_⟩ <;>
    (intro he; subst he; exact absurd hr (by decide))

lemma pyIntHex_two (a b : Char) (va vb : Nat)
    (ha : hexDigitVal a = some va) (hb : hexDigitVal b = some vb) :
    pyIntHex [a, b] = some (Int.ofNat (va * 16 + vb)) := by
  obtain ⟨hha, hpa, hma, hua, hxa, hXa⟩ := hexDigit_ne a va ha
  obtain ⟨hhb, hpb, hmb, hub, hxb, hXb⟩ := hexDigit_ne b vb hb
  have hwa := hexDigit_not_ws a va ha
  have hwb := hexDigit_not_ws b vb hb
  have ht : ((([a, b].dropWhile pyWhitespace).reverse).dropWhile pyWhitespace).reverse
      = [a, b] := by
    simp [List.dropWhile_cons, hwa, hwb]
  rw [pyIntHex]
  rw [ht]
  show (if a = '+' then (parseAfterSign [b]).map Int.ofNat
        else if a = '-' then (parseAfterSign [b]).map (fun n => -Int.ofNat n)
        else (parseAfterSign [a, b]).map Int.ofNat) = some (Int.ofNat (va * 16 + vb))
  rw [if_neg hpa, if_neg hma]
  have hsign : parseAfterSign [a, b] = some (va * 16 + vb) := by
    show (if a = '0' ∧ (b = 'x' ∨ b = 'X') then parseHexBody []
          else parseHexBody [a, b]) = some (va * 16 + vb)
    rw [if_neg (by rintro ⟨-, hx | hx⟩; exacts [hxb hx, hXb hx])]
    show (match hexDigitVal a with
          | some v => hexDigitsAux [b] v
          | none => none) = some (va * 16 + vb)
    rw [ha]
    show hexDigitsAux [b] va = some (va * 16 + vb)
    rw [show hexDigitsAux [b] va =
      (match hexDigitVal b with
       | some v => hexDigitsAux [] (va * 16 + v)
       | none => none) from if_neg hub]
    rw [hb]
    rfl
  rw [hsign]
  rfl

lemma pyIntHex_one (a : Char) (va : Nat) (ha : hexDigitVal a = some va) :
    pyIntHex [a] = some (Int.ofNat va) := by
  obtain ⟨hha, hpa, hma, hua, hxa, hXa⟩ := hexDigit_ne a va ha
  have hwa := hexDigit_not_ws a va ha
  have ht : ((([a].dropWhile pyWhitespace).reverse).dropWhile pyWhitespace).reverse
      = [a] := by
    simp [List.dropWhile_cons, hwa]
  rw [pyIntHex]
  rw [ht]
  show (if a = '+' then (parseAfterSign []).map Int.ofNat
        else if a = '-' then (parseAfterSign []).map (fun n => -Int.ofNat n)
        else (parseAfterSign [a]).map Int.ofNat) = some (Int.ofNat va)
  rw [if_neg hpa, if_neg hma]
  have hsign : parseAfterSign [a] = some va := by
    show (match hexDigitVal a with
          | some v => hexDigitsAux [] v
          | none => none) = some va
    rw [ha]
    rfl
  rw [hsign]
  rfl

lemma hex_to_rgb_parts (l : List Char) :
    hex_to_rgb l =
      (match pyIntHex ((l.dropWhile (· = '#')).take 2),
             pyIntHex (((l.dropWhile (· = '#')).drop 2).take 2),
             pyIntHex (((l.dropWhile (· = '#')).drop 4).take 2) with
       | some r, some g, some b =>
          some (Q.ofInt r / 255, Q.ofInt g / 255, Q.ofInt b / 255)
       | _, _, _ => none) := rfl

/-- C9 (counterexample): the 5-character string `"fffff"` is not "valid hex of
the expected length", yet `hex_to_rgb` does not fail on it: Python slicing
shortens the third slice to the single character `"f"`, so the parse succeeds
with a one-digit blue channel. -/
theorem hex_to_rgb_claim_counterexample :
    "fffff".data.length = 5 ∧
      hex_to_rgb "fffff".data =
        some (Q.ofInt 255 / 255, Q.ofInt 255 / 255, Q.ofInt 15 / 255) := by
  constructor
  · decide
  · decide

/-- `str.lstrip("#")` strips every leading `#`: dropping one leading `#` does
not change the parse (definitionally). -/
lemma hex_to_rgb_hash_cons (l : List Char) : hex_to_rgb ('#' :: l) = hex_to_rgb l := rfl

lemma hex_to_rgb_six_bare (c0 c1 c2 c3 c4 c5 : Char) (v0 v1 v2 v3 v4 v5 : Nat)
    (h0 : hexDigitVal c0 = some v0) (h1 : hexDigitVal c1 = some v1)
    (h2 : hexDigitVal c2 = some v2) (h3 : hexDigitVal c3 = some v3)
    (h4 : hexDigitVal c4 = some v4) (h5 : hexDigitVal c5 = some v5)
    (extra : List Char) :
    hex_to_rgb ([c0, c1, c2, c3, c4, c5] ++ extra) =
      some (Q.ofInt (Int.ofNat (v0 * 16 + v1)) / 255,
            Q.ofInt (Int.ofNat (v2 * 16 + v3)) / 255,
            Q.ofInt (Int.ofNat (v4 * 16 + v5)) / 255) := by
  have hne0 := (hexDigit_ne c0 v0 h0).1
  have hdrop : ([c0, c1, c2, c3, c4, c5] ++ extra).dropWhile (· = '#')
      = [c0, c1, c2, c3, c4, c5] ++ extra := by
    simp [List.dropWhile_cons, hne0]
  rw [hex_to_rgb_parts, hdrop]
  rw [show ([c0, c1, c2, c3, c4, c5] ++ extra).take 2 = [c0, c1] from rfl]
  rw [show (([c0, c1, c2, c3, c4, c5] ++ extra).drop 2).take 2 = [c2, c3] from rfl]
  rw [show (([c0, c1, c2, c3, c4, c5] ++ extra).drop 4).take 2 = [c4, c5] from rfl]
  rw [pyIntHex_two c0 c1 v0 v1 h0 h1, pyIntHex_two c2 c3 v2 v3 h2 h3,
    pyIntHex_two c4 c5 v4 v5 h4 h5]

/-- C9 (amended): `hex_to_rgb` parses a `#rrggbb` or bare `rrggbb` string of
hex digits into the three two-digit pairs each divided by 255, and any
characters beyond the sixth are ignored; it fails (Python `ValueError`, the
spec's FormatError) exactly when one of the slices `[0:2]`, `[2:4]`, `[4:6]`
fails to parse as hex - in particular for every all-hex string of length at
most 4, whose slice `[4:6]` is empty - but not on every string of unexpected
length: a 5-character hex string succeeds with a one-digit blue channel. -/
theorem hex_to_rgb_amended (c0 c1 c2 c3 c4 c5 : Char) (v0 v1 v2 v3 v4 v5 : Nat)
    (h0 : hexDigitVal c0 = some v0) (h1 : hexDigitVal c1 = some v1)
    (h2 : hexDigitVal c2 = some v2) (h3 : hexDigitVal c3 = some v3)
    (h4 : hexDigitVal c4 = some v4) (h5 : hexDigitVal c5 = some v5) :
    hex_to_rgb ('#' :: [c0, c1, c2, c3, c4, c5]) =
      some (Q.ofInt (Int.ofNat (v0 * 16 + v1)) / 255,
            Q.ofInt (Int.ofNat (v2 * 16 + v3)) / 255,
            Q.ofInt (Int.ofNat (v4 * 16 + v5)) / 255) ∧
    hex_to_rgb [c0, c1, c2, c3, c4, c5] =
      some (Q.ofInt (Int.ofNat (v0 * 16 + v1)) / 255,
            Q.ofInt (Int.ofNat (v2 * 16 + v3)) / 255,
            Q.ofInt (Int.ofNat (v4 * 16 + v5)) / 255) ∧
    (∀ extra : List Char,
      hex_to_rgb ('#' :: ([c0, c1, c2, c3, c4, c5] ++ extra)) =
        hex_to_rgb ('#' :: [c0, c1, c2, c3, c4, c5]) ∧
      hex_to_rgb ([c0, c1, c2, c3, c4, c5] ++ extra) =
        hex_to_rgb [c0, c1, c2, c3, c4, c5]) ∧
    hex_to_rgb [c0, c1, c2, c3, c4] =
      some (Q.ofInt (Int.ofNat (v0 * 16 + v1)) / 255,
            Q.ofInt (Int.ofNat (v2 * 16 + v3)) / 255,
            Q.ofInt (Int.ofNat v4) / 255) ∧
    (∀ l : List Char, (∀ c ∈ l, (hexDigitVal c).isSome = true) → l.length ≤ 4 →
      hex_to_rgb l = none) ∧
    (∀ l : List Char, hex_to_rgb l = none ↔
      (pyIntHex ((l.dropWhile (· = '#')).take 2) = none ∨
       pyIntHex (((l.dropWhile (· = '#')).drop 2).take 2) = none ∨
       pyIntHex (((l.dropWhile (· = '#')).drop 4).take 2) = none)) := by
  have hne0 := (hexDigit_ne c0 v0 h0).1
  have hbase : hex_to_rgb [c0, c1, c2, c3, c4, c5] =
      some (Q.ofInt (Int.ofNat (v0 * 16 + v1)) / 255,
            Q.ofInt (Int.ofNat (v2 * 16 + v3)) / 255,
            Q.ofInt (Int.ofNat (v4 * 16 + v5)) / 255) := by
    have h := hex_to_rgb_six_bare c0 c1 c2 c3 c4 c5 v0 v1 v2 v3 v4 v5 h0 h1 h2 h3 h4 h5 []
    rwa [List.append_nil] at h
  refine ⟨by rw [hex_to_rgb_hash_cons]; exact hbase, hbase, fun extra => ?_, ?_, ?_, ?_⟩
  · constructor
    · rw [hex_to_rgb_hash_cons, hex_to_rgb_hash_cons,
        hex_to_rgb_six_bare c0 c1 c2 c3 c4 c5 v0 v1 v2 v3 v4 v5 h0 h1 h2 h3 h4 h5 extra,
        hbase]
    · rw [hex_to_rgb_six_bare c0 c1 c2 c3 c4 c5 v0 v1 v2 v3 v4 v5 h0 h1 h2 h3 h4 h5 extra,
        hbase]
  · have hdrop : [c0, c1, c2, c3, c4].dropWhile (· = '#') = [c0, c1, c2, c3, c4] := by
      simp [List.dropWhile_cons, hne0]
    rw [hex_to_rgb_parts, hdrop]
    rw [show [c0, c1, c2, c3, c4].take 2 = [c0, c1] from rfl]
    rw [show ([c0, c1, c2, c3, c4].drop 2).take 2 = [c2, c3] from rfl]
    rw [show ([c0, c1, c2, c3, c4].drop 4).take 2 = [c4] from rfl]
    rw [pyIntHex_two c0 c1 v0 v1 h0 h1, pyIntHex_two c2 c3 v2 v3 h2 h3,
      pyIntHex_one c4 v4 h4]
  · intro l hv hlen
    have hdrop : l.dropWhile (· = '#') = l := by
      cases l with
      | nil => rfl
      | cons c cs =>
        obtain ⟨v, hvc⟩ := Option.isSome_iff_exists.mp (hv c (by simp))
        simp [List.dropWhile_cons, (hexDigit_ne c v hvc).1]
    have hnil : l.drop 4 = [] := List.drop_eq_nil_of_le (by omega)
    rw [hex_to_rgb_parts, hdrop, hnil]
    rw [show ([] : List Char).take 2 = [] from rfl]
    rw [show pyIntHex [] = none from rfl]
    cases pyIntHex (l.take 2) <;> cases pyIntHex ((l.drop 2).take 2) <;> rfl
  · intro l
    rw [hex_to_rgb_parts]
    cases pyIntHex ((l.dropWhile (· = '#')).take 2) <;>
      cases pyIntHex (((l.dropWhile (· = '#')).drop 2).take 2) <;>
        cases pyIntHex (((l.dropWhile (· = '#')).drop 4).take 2) <;> simp

theorem hex_to_rgb_amended_witness :
    hexDigitVal 'c' = some 12 ∧
    hex_to_rgb ('#' :: ['c', 'd', '0', '0', '1', '2']) =
      some (Q.ofInt (Int.ofNat (12 * 16 + 13)) / 255,
            Q.ofInt (Int.ofNat (0 * 16 + 0)) / 255,
            Q.ofInt (Int.ofNat (1 * 16 + 2)) / 255) ∧
    hex_to_rgb ['c', 'd', '0', '0', '1', '2'] =
      some (Q.ofInt (Int.ofNat (12 * 16 + 13)) / 255,
            Q.ofInt (Int.ofNat (0 * 16 + 0)) / 255,
            Q.ofInt (Int.ofNat (1 * 16 + 2)) / 255) ∧
    hex_to_rgb (['c', 'd', '0', '0', '1', '2'] ++ ['z', 'z']) =
      hex_to_rgb ['c', 'd', '0', '0', '1', '2'] ∧
    hex_to_rgb ['c', 'd', '0', '0', '1'] =
      some (Q.ofInt (Int.ofNat (12 * 16 + 13)) / 255,
            Q.ofInt (Int.ofNat (0 * 16 + 0)) / 255,
            Q.ofInt (Int.ofNat 1) / 255) ∧
    hex_to_rgb ['a', 'b', 'c'] = none ∧
    (hex_to_rgb ['c', 'd', '0', '0'] = none ↔
      (pyIntHex ((['c', 'd', '0', '0'].dropWhile (· = '#')).take 2) = none ∨
       pyIntHex (((['c', 'd', '0', '0'].dropWhile (· = '#')).drop 2).take 2) = none ∨
       pyIntHex (((['c', 'd', '0', '0'].dropWhile (· = '#')).drop 4).take 2) = none)) :=
  ⟨by decide,
   (hex_to_rgb_amended 'c' 'd' '0' '0' '1' '2' 12 13 0 0 1 2
     (by decide) (by decide) (by decide) (by decide) (by decide) (by decide)).1,
   (hex_to_rgb_amended 'c' 'd' '0' '0' '1' '2' 12 13 0 0 1 2
     (by decide) (by decide) (by decide) (by decide) (by decide) (by decide)).2.1,
   ((hex_to_rgb_amended 'c' 'd' '0' '0' '1' '2' 12 13 0 0 1 2
     (by decide) (by decide) (by decide) (by decide) (by decide) (by decide)).2.2.1
       ['z', 'z']).2,
   (hex_to_rgb_amended 'c' 'd' '0' '0' '1' '2' 12 13 0 0 1 2
     (by decide) (by decide) (by decide) (by decide) (by decide) (by decide)).2.2.2.1,
   (hex_to_rgb_amended 'c' 'd' '0' '0' '1' '2' 12 13 0 0 1 2
     (by decide) (by decide) (by decide) (by decide) (by decide) (by decide)).2.2.2.2.1
       ['a', 'b', 'c'] (by decide) (by decide),
   (hex_to_rgb_amended 'c' 'd' '0' '0' '1' '2' 12 13 0 0 1 2
     (by decide) (by decide) (by decide) (by decide) (by decide) (by decide)).2.2.2.2.2
       ['c', 'd', '0', '0']⟩

/-- The cache path exactly as the claim states the sanitization: `/`, `\` and
`.` replaced "and no other character replaced" - which wrongly keeps `|` and
wrongly replaces `\`. -/
theorem cache_fname_claim_counterexample :
    cache_fname "a|b\\c.png" "wal" false "c" "" 10 "1" ≠
      claimCacheFname "a|b\\c.png" "wal" false "c" "" 10 "1" := by decide

/-- C3 (amended): `cache_fname` yields
`[cache_dir, "schemes", <sanitized>_<light|dark>_<backend>_<sat>_<size>_<version>.json]`
with the fields in exactly that order, where the sanitized image path replaces
every `/`, `|` and `.` (NOT `\`: the regex class `[/|\|.]` contains an escaped
pipe, not a backslash) by `_` and no other character. -/
theorem cache_fname_amended (img backend : String) (light : Bool)
    (cache_dir sat : String) (fileSize : Nat) (version : String) :
    ∃ san : String,
      cache_fname img backend light cache_dir sat fileSize version =
        [cache_dir, "schemes",
          san ++ "_" ++ (if light then "light" else "dark") ++ "_" ++ backend ++ "_" ++
            sat ++ "_" ++ toString fileSize ++ "_" ++ version ++ ".json"] ∧
      san.data.length = img.data.length ∧
      ∀ i : Nat, san.data.getD i ' ' =
        (if img.data.getD i ' ' = '/' ∨ img.data.getD i ' ' = '|' ∨ img.data.getD i ' ' = '.'
         then '_' else img.data.getD i ' ') := by
  refine ⟨sanitizeImg img, rfl, by simp [sanitizeImg], ?_⟩
  intro i
  rw [sanitizeImg]
  simp only [List.getD_eq_getElem?_getD, List.getElem?_map]
  cases himg : img.data[i]? with
  | none => simp
  | some c => simp

/-- The reference palette exactly as the claim orders it: the bright variants
in the order bright-black, bright-red, bright-green, bright-yellow,
bright-blue, bright-magenta, bright-cyan, bright-white (values for each name
taken from the source's own labels). -/
def claimRefPalette : List (Nat × Nat × Nat) :=
  [ (0, 0, 0), (205, 0, 0), (0, 205, 0), (205, 205, 0), (0, 0, 238), (205, 0, 205),
    (0, 205, 205), (229, 229, 229),
    (127, 127, 127), (255, 0, 0), (0, 255, 0), (255, 255, 0), (92, 92, 255),
    (255, 0, 255), (0, 255, 255), (255, 255, 255) ]

/-- C7 (counterexample): the source palette does not follow the claimed order;
in particular index 8 holds bright-red `(255,0,0)`, not bright-black. -/
theorem x_colors_b_claim_counterexample :
    x_colors_b ≠ claimRefPalette ∧ x_colors_b.getD 8 (0, 0, 0) = (255, 0, 0) := by
  constructor
  · decide
  · decide

/-- The reference palette in its actual order: black, red, green, yellow,
blue, magenta, cyan, white, bright-red, bright-green, bright-yellow,
bright-blue, bright-magenta, bright-cyan, bright-black (gray), bright-white. -/
def amendedRefPalette : List (Nat × Nat × Nat) :=
  [ (0, 0, 0), (205, 0, 0), (0, 205, 0), (205, 205, 0), (0, 0, 238), (205, 0, 205),
    (0, 205, 205), (229, 229, 229),
    (255, 0, 0), (0, 255, 0), (255, 255, 0), (92, 92, 255), (255, 0, 255),
    (0, 255, 255), (127, 127, 127), (255, 255, 255) ]

/-- C7 (amended): the reference palette constant has exactly 16 entries; its
bright half is ordered bright-red .. bright-cyan with bright-black (gray) at
index 14 and bright-white at index 15 - bright-black does NOT occupy index 8
(bright-red does). -/
theorem x_colors_b_amended :
    x_colors_b.length = 16 ∧ x_colors_b = amendedRefPalette ∧
      x_colors_b.getD 14 (0, 0, 0) = (127, 127, 127) ∧
      x_colors_b.getD 15 (0, 0, 0) = (255, 255, 255) := by
  refine ⟨?_, ?_, ?_, ?_⟩ <;> decide

/- List indexing helpers used to characterize the slot-assignment functions. -/

lemma getD_set_self {α : Type} (d : α) :
    ∀ (l : List α) (i : Nat) (v : α), i < l.length → (l.set i v).getD i d = v := by
  intro l
  induction l with
  | nil => intro i v h; simp at h
  | cons x xs ih =>
    intro i v h
    cases i with
    | zero => rfl
    | succ i' =>
      rw [List.set_cons_succ, List.getD_cons_succ]
      exact ih i' v (by simpa using h)

lemma getD_set_ne {α : Type} (d : α) :
    ∀ (l : List α) (i j : Nat) (v : α), i ≠ j → (l.set i v).getD j d = l.getD j d := by
  intro l
  induction l with
  | nil => intro i j v _; simp
  | cons x xs ih =>
    intro i j v h
    cases i with
    | zero =>
      cases j with
      | zero => exact absurd rfl h
      | succ j' => rfl
    | succ i' =>
      cases j with
      | zero => rfl
      | succ j' =>
        rw [List.set_cons_succ, List.getD_cons_succ, List.getD_cons_succ]
        exact ih i' j' v (by omega)

lemma pyGet_ok {α : Type} (d : α) (l : List α) (i : Nat) (h : i < l.length) :
    pyGet l i = .ok (l.getD i d) := by
  rw [pyGet, List.get?_eq_getElem?, List.getElem?_eq_getElem h, List.getD_eq_getElem?_getD,
    List.getElem?_eq_getElem h]
  rfl

lemma pySet_ok {α : Type} (l : List α) (i : Nat) (v : α) (h : i < l.length) :
    pySet l i v = .ok (l.set i v) := by
  rw [pySet, if_pos h]

lemma liftOpt_some {α : Type} (x : α) : liftOpt (some x) = .ok x := rfl

lemma liftOpt_none {α : Type} : liftOpt (none : Option α) = .error .formatError := rfl

/- The loop of `saturate_colors`, characterized position by position. -/

lemma satLoopV_spec (a : Q) :
    ∀ (cs : List String) (i : Nat) (out : List String), satLoopV a cs i = .ok out →
      out.length = cs.length ∧
      ∀ j : Nat,
        ((i + j = 0 ∨ i + j = 7 ∨ i + j = 8 ∨ i + j = 15) →
          out.getD j "" = cs.getD j "") ∧
        (¬(i + j = 0 ∨ i + j = 7 ∨ i + j = 8 ∨ i + j = 15) → j < cs.length →
          saturate_color (cs.getD j "") a = some (out.getD j "")) := by
  intro cs
  induction cs with
  | nil =>
    intro i out h
    rw [satLoopV] at h
    cases h
    refine ⟨rfl, ?_⟩
    intro j
    refine ⟨fun _ => rfl, fun _ hj => ?_⟩
    simp at hj
  | cons c cs ih =>
    intro i out h
    rw [satLoopV] at h
    by_cases hi : i = 0 ∨ i = 7 ∨ i = 8 ∨ i = 15
    · rw [if_pos hi] at h
      cases hrec : satLoopV a cs (i + 1) with
      | error e => rw [hrec] at h; cases h
      | ok out' =>
        rw [hrec] at h
        have h' : Except.ok (c :: out') = (Except.ok out : Except PyErr (List String)) := h
        cases h'
        obtain ⟨hlen, hspec⟩ := ih (i + 1) out' hrec
        refine ⟨by simp [hlen], ?_⟩
        intro j
        cases j with
        | zero =>
          refine ⟨fun _ => rfl, fun hctr _ => ?_⟩
          exact absurd (by omega) hctr
        | succ j' =>
          have hs := hspec j'
          refine ⟨fun hj => ?_, fun hj hlt => ?_⟩
          · rw [List.getD_cons_succ, List.getD_cons_succ]
            exact hs.1 (by omega)
          · rw [List.getD_cons_succ, List.getD_cons_succ]
            exact hs.2 (by omega) (by simp at hlt; omega)
    · rw [if_neg hi] at h
      cases hsat : saturate_color c a with
      | none => rw [hsat] at h; cases h
      | some c' =>
        rw [hsat] at h
        cases hrec : satLoopV a cs (i + 1) with
        | error e => rw [hrec] at h; cases h
        | ok out' =>
          rw [hrec] at h
          have h' : Except.ok (c' :: out') = (Except.ok out : Except PyErr (List String)) := h
          cases h'
          obtain ⟨hlen, hspec⟩ := ih (i + 1) out' hrec
          refine ⟨by simp [hlen], ?_⟩
          intro j
          cases j with
          | zero =>
            refine ⟨fun hj => ?_, fun _ _ => ?_⟩
            · exact absurd (by omega : i + 0 = i) (by intro he; rw [he] at hj; exact hi hj)
            · rw [List.getD_cons_zero, List.getD_cons_zero, hsat]
          | succ j' =>
            have hs := hspec j'
            refine ⟨fun hj => ?_, fun hj hlt => ?_⟩
            · rw [List.getD_cons_succ, List.getD_cons_succ]
              exact hs.1 (by omega)
            · rw [List.getD_cons_succ, List.getD_cons_succ]
              exact hs.2 (by omega) (by simp at hlt; omega)

/-- `saturate_colors palette16 "1.0"`: saturation 1.0 applied to every
non-anchor slot (computed value, checked by evaluation in the witnesses). -/
def satOne16 : List String :=
  ["#000000", "#cd0000", "#00cd00", "#cdcd00", "#0000ee", "#cd00cd", "#00cdcd", "#e5e5e5",
   "#ff0000", "#00ff00", "#ffff00", "#5c5cff", "#ff00ff", "#00ffff", "#fe0000", "#ffffff"]

/-- C8 (counterexample): the claim says a zero amount is a full no-op, but the
saturation amount is a string here, and the string `"0"` is truthy, so the
branch IS taken and the non-anchor slots are saturated with amount 0
(grayscaled): the output differs from the input. -/
theorem saturate_colors_claim_counterexample :
    saturate_colors palette16 "0" ≠ .ok palette16 := by decide

/-- C8 (amended): `saturate_colors` leaves slots 0, 7, 8 and 15 unchanged on
every successful call; it is a full no-op when the amount is falsy (the empty
string) or parses to a float above 1.0; and whenever the truthy branch is
taken (any nonempty amount parsing to at most 1.0 - including the truthy
string `"0"`, which the claim wrongly calls a no-op) every slot outside
{0, 7, 8, 15} is saturated toward the parsed amount. -/
theorem saturate_colors_amended :
    (∀ colors : List String, saturate_colors colors "" = .ok colors) ∧
    (∀ (colors : List String) (amount : String) (a : Q),
      pyFloat amount = some a → ¬(a ≤ 1) → saturate_colors colors amount = .ok colors) ∧
    (∀ (colors out : List String) (amount : String),
      saturate_colors colors amount = .ok out →
      out.getD 0 "" = colors.getD 0 "" ∧ out.getD 7 "" = colors.getD 7 "" ∧
        out.getD 8 "" = colors.getD 8 "" ∧ out.getD 15 "" = colors.getD 15 "") ∧
    (∀ (colors out : List String) (amount : String) (a : Q),
      amount ≠ "" → pyFloat amount = some a → a ≤ 1 →
      saturate_colors colors amount = .ok out →
      ∀ j, ¬(j = 0 ∨ j = 7 ∨ j = 8 ∨ j = 15) → j < colors.length →
        saturate_color (colors.getD j "") a = some (out.getD j "")) := by
  refine ⟨?_, ?_, ?_, ?_⟩
  · intro colors
    rw [saturate_colors, if_pos rfl]
  · intro colors amount aq hf hgt
    rw [saturate_colors]
    by_cases he : amount = ""
    · rw [if_pos he]
    · rw [if_neg he, hf]
      show (if aq ≤ 1 then satLoopV aq colors 0 else .ok colors) = .ok colors
      rw [if_neg hgt]
  · intro colors out amount hok
    rw [saturate_colors] at hok
    by_cases he : amount = ""
    · rw [if_pos he] at hok
      cases hok
      exact ⟨rfl, rfl, rfl, rfl⟩
    · rw [if_neg he] at hok
      cases hf : pyFloat amount with
      | none => rw [hf] at hok; cases hok
      | some aq =>
        rw [hf] at hok
        have hok' : (if aq ≤ 1 then satLoopV aq colors 0 else .ok colors) = .ok out := hok
        by_cases hle : aq ≤ 1
        · rw [if_pos hle] at hok'
          obtain ⟨hlen, hspec⟩ := satLoopV_spec aq colors 0 out hok'
          exact ⟨(hspec 0).1 (by omega), (hspec 7).1 (by omega),
            (hspec 8).1 (by omega), (hspec 15).1 (by omega)⟩
        · rw [if_neg hle] at hok'
          cases hok'
          exact ⟨rfl, rfl, rfl, rfl⟩
  · intro colors out amount aq hne hf hle hok j hj hjlen
    rw [saturate_colors, if_neg hne, hf] at hok
    have hok' : (if aq ≤ 1 then satLoopV aq colors 0 else .ok colors) = .ok out := hok
    rw [if_pos hle] at hok'
    obtain ⟨hlen, hspec⟩ := satLoopV_spec aq colors 0 out hok'
    have := (hspec j).2 (by omega) hjlen
    simpa using this

theorem saturate_colors_amended_witness :
    saturate_colors palette16 "" = .ok palette16 ∧
    saturate_colors palette16 "2.0" = .ok palette16 ∧
    (satOne16.getD 0 "" = palette16.getD 0 "" ∧ satOne16.getD 7 "" = palette16.getD 7 "" ∧
      satOne16.getD 8 "" = palette16.getD 8 "" ∧ satOne16.getD 15 "" = palette16.getD 15 "") ∧
    saturate_color (palette16.getD 14 "") ⟨10, 10, by decide⟩ = some (satOne16.getD 14 "") :=
  ⟨saturate_colors_amended.1 palette16,
   saturate_colors_amended.2.1 palette16 "2.0" ⟨20, 10, by decide⟩ (by decide) (by decide),
   saturate_colors_amended.2.2.1 palette16 satOne16 "1.0" (by decide),
   saturate_colors_amended.2.2.2 palette16 satOne16 "1.0" ⟨10, 10, by decide⟩
     (by decide) (by decide) (by decide) (by decide) 14 (by decide) (by decide)⟩

/-- `generic_adjust palette16 true`: only slots 0, 7, 8 and 15 change
(computed value, checked by evaluation in the counterexample and witness). -/
def genLight16 : List String :=
  ["#f2f2f2", "#cd0000", "#00cd00", "#cdcd00", "#0000ee", "#cd00cd", "#00cdcd", "#3c3c3c",
   "#b5b5b5", "#00ff00", "#ffff00", "#5c5cff", "#ff00ff", "#00ffff", "#7f7f7f", "#3c3c3c"]

/-- C5 (counterexample): in light mode slot 1 comes out unchanged, although
the claim's prescribed transform - desaturate toward 0.60 then darken by 0.5 -
would change it: the `for color in colors:` loop only rebinds a local name. -/
theorem generic_adjust_light_claim_counterexample :
    generic_adjust palette16 true = .ok genLight16 ∧
    genLight16.getD 1 "" = palette16.getD 1 "" ∧
    darken_color ((saturate_color (palette16.getD 1 "") (6 / 10)).getD "") (1 / 2) ≠
      some (palette16.getD 1 "") := by
  refine ⟨by decide, by decide, by decide⟩

/-- C5 (amended): in light mode `generic_adjust` leaves every slot outside
{0, 7, 8, 15} unchanged (the per-slot desaturate/darken loop rebinds a local
name and has no effect on the list); it sets slot 0 to the 0.95-lightened
original slot 0, slot 7 to the 0.75-darkened and slot 8 to the 0.25-darkened
version of that same lightened color, and slot 15 equal to slot 7. -/
theorem generic_adjust_light_amended (colors out : List String) (h16 : colors.length = 16)
    (hok : generic_adjust colors true = .ok out) :
    ∃ c0 c7 c8 : String,
      lighten_color (colors.getD 0 "") (95 / 100) = some c0 ∧
      darken_color c0 (75 / 100) = some c7 ∧
      darken_color c0 (25 / 100) = some c8 ∧
      out = (((colors.set 0 c0).set 7 c7).set 8 c8).set 15 c7 ∧
      ∀ j, ¬(j = 0 ∨ j = 7 ∨ j = 8 ∨ j = 15) → out.getD j "" = colors.getD j "" := by
  rw [generic_adjust, if_pos rfl] at hok
  cases hl : lightLoop colors with
  | error e => rw [hl] at hok; cases hok
  | ok u =>
    rw [hl] at hok
    simp only at hok
    rw [pyGet_ok "" colors 0 (by omega)] at hok
    simp only at hok
    cases h0 : lighten_color (colors.getD 0 "") (95 / 100) with
    | none => rw [h0, liftOpt_none] at hok; cases hok
    | some c0 =>
      rw [h0, liftOpt_some] at hok
      simp only at hok
      rw [pySet_ok colors 0 c0 (by omega)] at hok
      simp only at hok
      rw [pyGet_ok "" (colors.set 0 c0) 0 (by simp; omega),
        getD_set_self "" colors 0 c0 (by omega)] at hok
      simp only at hok
      cases h7 : darken_color c0 (75 / 100) with
      | none => rw [h7, liftOpt_none] at hok; cases hok
      | some c7 =>
        rw [h7, liftOpt_some] at hok
        simp only at hok
        rw [pySet_ok (colors.set 0 c0) 7 c7 (by simp; omega)] at hok
        simp only at hok
        rw [pyGet_ok "" ((colors.set 0 c0).set 7 c7) 0 (by simp; omega),
          getD_set_ne "" (colors.set 0 c0) 7 0 c7 (by omega),
          getD_set_self "" colors 0 c0 (by omega)] at hok
        simp only at hok
        cases h8 : darken_color c0 (25 / 100) with
        | none => rw [h8, liftOpt_none] at hok; cases hok
        | some c8 =>
          rw [h8, liftOpt_some] at hok
          simp only at hok
          rw [pySet_ok ((colors.set 0 c0).set 7 c7) 8 c8 (by simp; omega)] at hok
          simp only at hok
          rw [pyGet_ok "" (((colors.set 0 c0).set 7 c7).set 8 c8) 7 (by simp; omega),
            getD_set_ne "" ((colors.set 0 c0).set 7 c7) 8 7 c8 (by omega),
            getD_set_self "" (colors.set 0 c0) 7 c7 (by simp; omega)] at hok
          simp only at hok
          rw [pySet_ok (((colors.set 0 c0).set 7 c7).set 8 c8) 15 c7 (by simp; omega)] at hok
          have hok' : Except.ok ((((colors.set 0 c0).set 7 c7).set 8 c8).set 15 c7)
              = (Except.ok out : Except PyErr (List String)) := hok
          cases hok'
          refine ⟨c0, c7, c8, rfl, h7, h8, rfl, ?_⟩
          intro j hj
          rw [getD_set_ne "" _ 15 j c7 (by omega), getD_set_ne "" _ 8 j c8 (by omega),
            getD_set_ne "" _ 7 j c7 (by omega), getD_set_ne "" _ 0 j c0 (by omega)]

theorem generic_adjust_light_amended_witness :
    palette16.length = 16 ∧ generic_adjust palette16 true = .ok genLight16 ∧
      (∃ c0 c7 c8 : String,
        lighten_color (palette16.getD 0 "") (95 / 100) = some c0 ∧
        darken_color c0 (75 / 100) = some c7 ∧
        darken_color c0 (25 / 100) = some c8 ∧
        genLight16 = (((palette16.set 0 c0).set 7 c7).set 8 c8).set 15 c7 ∧
        ∀ j, ¬(j = 0 ∨ j = 7 ∨ j = 8 ∨ j = 15) →
          genLight16.getD j "" = palette16.getD j "") :=
  ⟨by decide, by decide,
    generic_adjust_light_amended palette16 genLight16 (by decide) (by decide)⟩

/- Frame and same-reference lemmas for the store-level post-processing
functions. -/

lemma pyListWrite_ok_inv (st st' : Store) (r i : Nat) (v : String)
    (h : pyListWrite st r i v = .ok st') :
    st' = List.set st r ((List.getD st r []).set i v) := by
  rw [pyListWrite] at h
  split_ifs at h
  exact (Except.ok.inj h).symm

lemma store_set_frame (st : Store) (r q : Nat) (x : List String) (h : q ≠ r) :
    List.getD (List.set st r x) q [] = List.getD st q [] :=
  getD_set_ne [] st r q x (Ne.symm h)

lemma satHeapLoop_frame (a : Q) :
    ∀ (k : Nat) (st : Store) (r i q : Nat), q ≠ r →
      List.getD ((satHeapLoop a st r i k).2) q [] = List.getD st q [] := by
  intro k
  induction k with
  | zero => intro st r i q h; rfl
  | succ k ih =>
    intro st r i q h
    rw [satHeapLoop]
    by_cases hi : i = 0 ∨ i = 7 ∨ i = 8 ∨ i = 15
    · rw [if_pos hi]
      exact ih st r (i + 1) q h
    · rw [if_neg hi]
      cases hr : pyListRead st r i with
      | error e => rfl
      | ok c =>
        simp only
        cases hs : saturate_color c a with
        | none => rfl
        | some c' =>
          simp only
          cases hw : pyListWrite st r i c' with
          | error e => rfl
          | ok st' =>
            simp only
            calc List.getD ((satHeapLoop a st' r (i + 1) k).2) q []
                = List.getD st' q [] := ih st' r (i + 1) q h
              _ = List.getD st q [] := by
                  rw [pyListWrite_ok_inv st st' r i c' hw]
                  exact store_set_frame st r q _ h

lemma saturate_colors_heap_frame (st : Store) (r : Nat) (amount : String) (q : Nat)
    (h : q ≠ r) :
    List.getD ((saturate_colors_heap st r amount).2) q [] = List.getD st q [] := by
  rw [saturate_colors_heap]
  by_cases he : amount = ""
  · rw [if_pos he]
  · rw [if_neg he]
    cases hf : pyFloat amount with
    | none => rfl
    | some aq =>
      simp only
      by_cases hle : aq ≤ 1
      · rw [if_pos hle]
        exact satHeapLoop_frame aq (List.getD st r []).length st r 0 q h
      · rw [if_neg hle]

lemma saturate_colors_heap_ref (st : Store) (r : Nat) (amount : String) (r' : Nat)
    (h : (saturate_colors_heap st r amount).1 = .ok r') : r' = r := by
  rw [saturate_colors_heap] at h
  by_cases he : amount = ""
  · rw [if_pos he] at h
    exact (Except.ok.inj h).symm
  · rw [if_neg he] at h
    cases hf : pyFloat amount with
    | none => rw [hf] at h; cases h
    | some aq =>
      rw [hf] at h
      simp only at h
      by_cases hle : aq ≤ 1
      · rw [if_pos hle] at h
        cases hloop : (satHeapLoop aq st r 0 (List.getD st r []).length).1 with
        | ok u => rw [hloop, emap_ok] at h; exact (Except.ok.inj h).symm
        | error e => rw [hloop, emap_error] at h; cases h
      · rw [if_neg hle] at h
        exact (Except.ok.inj h).symm

lemma adjustCore_shape (st : Store) (r : Nat) (op0 op7 op8 : String → Option String) :
    (∀ q, q ≠ r →
      List.getD ((adjustCore st r op0 op7 op8).2) q [] = List.getD st q []) ∧
    (∀ r', (adjustCore st r op0 op7 op8).1 = .ok r' → r' = r) := by
  rw [adjustCore]
  cases h0 : pyListRead st r 0 with
  | error e => exact ⟨fun q _ => rfl, fun r' h => by cases h⟩
  | ok a0 =>
    simp only
    cases hc0 : op0 a0 with
    | none => exact ⟨fun q _ => rfl, fun r' h => by cases h⟩
    | some c0 =>
      simp only
      cases hw0 : pyListWrite st r 0 c0 with
      | error e => exact ⟨fun q _ => rfl, fun r' h => by cases h⟩
      | ok st0 =>
        simp only
        have hf0 : ∀ q, q ≠ r → List.getD st0 q [] = List.getD st q [] := by
          intro q hq
          rw [pyListWrite_ok_inv st st0 r 0 c0 hw0]
          exact store_set_frame st r q _ hq
        cases h1 : pyListRead st0 r 0 with
        | error e => exact ⟨fun q hq => hf0 q hq, fun r' h => by cases h⟩
        | ok b0 =>
          simp only
          cases hc7 : op7 b0 with
          | none => exact ⟨fun q hq => hf0 q hq, fun r' h => by cases h⟩
          | some c7 =>
            simp only
            cases hw7 : pyListWrite st0 r 7 c7 with
            | error e => exact ⟨fun q hq => hf0 q hq, fun r' h => by cases h⟩
            | ok st7 =>
              simp only
              have hf7 : ∀ q, q ≠ r → List.getD st7 q [] = List.getD st q [] := by
                intro q hq
                rw [pyListWrite_ok_inv st0 st7 r 7 c7 hw7]
                rw [store_set_frame st0 r q _ hq]
                exact hf0 q hq
              cases h2 : pyListRead st7 r 0 with
              | error e => exact ⟨fun q hq => hf7 q hq, fun r' h => by cases h⟩
              | ok b0' =>
                simp only
                cases hc8 : op8 b0' with
                | none => exact ⟨fun q hq => hf7 q hq, fun r' h => by cases h⟩
                | some c8 =>
                  simp only
                  cases hw8 : pyListWrite st7 r 8 c8 with
                  | error e => exact ⟨fun q hq => hf7 q hq, fun r' h => by cases h⟩
                  | ok st8 =>
                    simp only
                    have hf8 : ∀ q, q ≠ r → List.getD st8 q [] = List.getD st q [] := by
                      intro q hq
                      rw [pyListWrite_ok_inv st7 st8 r 8 c8 hw8]
                      rw [store_set_frame st7 r q _ hq]
                      exact hf7 q hq
                    cases h3 : pyListRead st8 r 7 with
                    | error e => exact ⟨fun q hq => hf8 q hq, fun r' h => by cases h⟩
                    | ok v7 =>
                      simp only
                      cases hw15 : pyListWrite st8 r 15 v7 with
                      | error e => exact ⟨fun q hq => hf8 q hq, fun r' h => by cases h⟩
                      | ok st15 =>
                        simp only
                        refine ⟨fun q hq => ?_, fun r' h => (Except.ok.inj h).symm⟩
                        rw [pyListWrite_ok_inv st8 st15 r 15 v7 hw15]
                        rw [store_set_frame st8 r q _ hq]
                        exact hf8 q hq

lemma generic_adjust_heap_frame (st : Store) (r : Nat) (light : Bool) (q : Nat)
    (h : q ≠ r) :
    List.getD ((generic_adjust_heap st r light).2) q [] = List.getD st q [] := by
  rw [generic_adjust_heap]
  cases light with
  | false =>
    rw [if_neg (by simp)]
    exact (adjustCore_shape st r _ _ _).1 q h
  | true =>
    rw [if_pos rfl]
    cases hl : lightLoop (List.getD st r []) with
    | error e => rfl
    | ok u => exact (adjustCore_shape st r _ _ _).1 q h

lemma generic_adjust_heap_ref (st : Store) (r : Nat) (light : Bool) (r' : Nat)
    (h : (generic_adjust_heap st r light).1 = .ok r') : r' = r := by
  rw [generic_adjust_heap] at h
  cases light with
  | false =>
    rw [if_neg (by simp)] at h
    exact (adjustCore_shape st r _ _ _).2 r' h
  | true =>
    rw [if_pos rfl] at h
    cases hl : lightLoop (List.getD st r []) with
    | error e => rw [hl] at h; cases h
    | ok u =>
      rw [hl] at h
      exact (adjustCore_shape st r _ _ _).2 r' h

/-- C10: `saturate_colors` and `generic_adjust` mutate the list object they
are given through its reference and return that very reference: the result
reference equals the argument reference, every other list object in the store
is untouched, and on the `saturate_colors` no-op paths (falsy amount, or
amount above 1.0) the store is returned completely unchanged with every
element of the caller's list intact. -/
theorem postprocess_in_place (st : Store) (r : Nat) :
    (∀ (amount : String) (q : Nat), q ≠ r →
      List.getD ((saturate_colors_heap st r amount).2) q [] = List.getD st q []) ∧
    (∀ (amount : String) (r' : Nat),
      (saturate_colors_heap st r amount).1 = .ok r' → r' = r) ∧
    saturate_colors_heap st r "" = (.ok r, st) ∧
    (∀ (amount : String) (a : Q), amount ≠ "" → pyFloat amount = some a → ¬(a ≤ 1) →
      saturate_colors_heap st r amount = (.ok r, st)) ∧
    (∀ (light : Bool) (q : Nat), q ≠ r →
      List.getD ((generic_adjust_heap st r light).2) q [] = List.getD st q []) ∧
    (∀ (light : Bool) (r' : Nat),
      (generic_adjust_heap st r light).1 = .ok r' → r' = r) := by
  refine ⟨fun amount q h => saturate_colors_heap_frame st r amount q h,
    fun amount r' h => saturate_colors_heap_ref st r amount r' h,
    by rw [saturate_colors_heap, if_pos rfl],
    fun amount a hne hf hgt => ?_,
    fun light q h => generic_adjust_heap_frame st r light q h,
    fun light r' h => generic_adjust_heap_ref st r light r' h⟩
  rw [saturate_colors_heap, if_neg hne, hf]
  show (if a ≤ 1
    then ((satHeapLoop a st r 0 (List.getD st r []).length).1.map (fun _ => r),
          (satHeapLoop a st r 0 (List.getD st r []).length).2)
    else (.ok r, st)) = (.ok r, st)
  rw [if_neg hgt]

/-- A two-object store used to exercise the in-place theorem. -/
def store2 : Store := [palette16, ["#aaaaaa"]]

theorem postprocess_in_place_witness :
    List.getD ((saturate_colors_heap store2 0 "0.5").2) 1 [] = List.getD store2 1 [] ∧
    saturate_colors_heap store2 0 "" = (.ok 0, store2) ∧
    saturate_colors_heap store2 0 "2.0" = (.ok 0, store2) ∧
    List.getD ((generic_adjust_heap store2 0 true).2) 1 [] = List.getD store2 1 [] ∧
    ((generic_adjust_heap store2 0 true).1 = .ok 0 → (0 : Nat) = 0) :=
  ⟨(postprocess_in_place store2 0).1 "0.5" 1 (by decide),
   (postprocess_in_place store2 0).2.2.1,
   (postprocess_in_place store2 0).2.2.2.1 "2.0" ⟨20, 10, by decide⟩
     (by decide) (by decide) (by decide),
   (postprocess_in_place store2 0).2.2.2.2.1 true 1 (by decide),
   (postprocess_in_place store2 0).2.2.2.2.2 true 0⟩

/-- C4: calling `get` twice with identical arguments while the source image is
unchanged (same size, hence same cache path) returns identical Scheme content
on the second call - a pure read of the store entry persisted by the first
call, performed whatever backend function or alpha configuration is current -
except that the `alpha` field is overwritten with the current process-wide
alpha configuration rather than taken from the cached blob. -/
theorem get_idempotent (bf1 bf2 : String → Bool → List String) (a1 a2 : String)
    (fs : List (String × Scheme)) (img : String) (light : Bool) (backend : String)
    (cache_dir sat : String) (fileSize : Nat) (version : String)
    (s : Scheme) (fs' : List (String × Scheme))
    (h : get bf1 a1 fs img light backend cache_dir sat fileSize version = .ok (s, fs')) :
    get bf2 a2 fs' img light backend cache_dir sat fileSize version =
      .ok ({ s with alpha := a2 }, fs') := by
  rw [get] at h ⊢
  cases hl : fsLookup fs (joinPath (cache_fname img backend light cache_dir sat fileSize version)) with
  | some s0 =>
    rw [hl] at h
    have h' : Except.ok ({ s0 with alpha := a1 }, fs)
        = (Except.ok (s, fs') : Except PyErr (Scheme × List (String × Scheme))) := h
    cases h'
    rw [hl]
  | none =>
    rw [hl] at h
    simp only at h
    cases hsat : saturate_colors (bf1 img light) sat with
    | error e => rw [hsat] at h; cases h
    | ok sc =>
      rw [hsat] at h
      simp only at h
      cases hdict : colors_to_dict sc img a1 with
      | error e => rw [hdict] at h; cases h
      | ok scheme =>
        rw [hdict] at h
        have h' : Except.ok (scheme,
            (joinPath (cache_fname img backend light cache_dir sat fileSize version), scheme) :: fs)
            = (Except.ok (s, fs') : Except PyErr (Scheme × List (String × Scheme))) := h
        cases h'
        rw [show fsLookup
            ((joinPath (cache_fname img backend light cache_dir sat fileSize version), s) :: fs)
            (joinPath (cache_fname img backend light cache_dir sat fileSize version))
            = some s from by rw [fsLookup, if_pos rfl]]

/-- A backend function for the witness (never invoked on the cache-hit path). -/
def bfW : String → Bool → List String := fun _ _ => []

/-- A stored scheme for the witness. -/
def schemeW : Scheme :=
  { wallpaper := "img", alpha := "100", background := none, foreground := none,
    cursor := none, colors := [] }

/-- A store already containing the cache entry for the witness call. -/
def fsW : List (String × Scheme) := [("c/schemes/img_dark_wal__10_1.json", schemeW)]

theorem get_idempotent_witness :
    get bfW "50" fsW "img" false "wal" "c" "" 10 "1" =
      .ok ({ schemeW with alpha := "50" }, fsW) ∧
    get bfW "60" fsW "img" false "wal" "c" "" 10 "1" =
      .ok ({ { schemeW with alpha := "50" } with alpha := "60" }, fsW) :=
  ⟨by decide,
    get_idempotent bfW bfW "50" "60" fsW "img" false "wal" "c" "" 10 "1"
      { schemeW with alpha := "50" } fsW (by decide)⟩

end Pywal

